import Mathlib

/-!
# Live-quiz server (`server.js`): question lifecycle and scoring

A shallow embedding of the socket handlers of `server.js` and of the two
functions `startQuestion` and `endCurrentQuestion`.

Modelling conventions.

* The module-level variables (`scores`, `currentQuestion`, `answeredOrder`,
  `lastAnswerTime`, `questionTimer`, `questionStartTime`) are the first six
  fields of `State`.  The remaining fields are the part of the runtime the
  handlers talk to: the timeouts still pending in the event loop, the counter
  from which `setTimeout` draws a fresh handle, and `socket.data.playerName`
  of every connection.
* A handler is a function from the state to the new state and the list of
  messages it emits, in program order.  `console.log` is not modelled.
* `Date.now()` is an argument `now` of the handler (milliseconds, `Int`).
  `timeTaken` and the entry of `lastAnswerTime` are kept as the millisecond
  difference `answeredAt - questionStartTime`, of which the source stores the
  quotient by 1000 (and its `toFixed(3)` rendering).
* A JavaScript object used as a dictionary (`scores`, `lastAnswerTime`) is the
  list of its own properties, read and written as the runtime does for an
  object literal `{}`: a read that finds no own property falls back on
  `Object.prototype`, and a write under the key `__proto__` is dropped.
* Points are `Int`. A value held in `scores` is a number or a non-empty string:
  line 65 stores `0` and line 95 a sum, which is a number or, when the left
  operand is not a number, a string that ends with the digits of the points.
* A truthiness test `!x` is true of `undefined`, of the number `0` and of the
  empty string, and false of every object, function and timeout handle.
-/

namespace Quiz

/-! ## Data -/

/-- Seconds a question stays open (`QUESTION_TIME_SEC`). -/
def QUESTION_TIME_SEC : Nat := 15

/-- A record of `questions.json`: `{ id, text, options, correct }`; the `id`
may be missing. -/
structure Question where
  id : Option Int
  text : String
  options : List String
  correct : String
deriving DecidableEq, Repr

/-- An element of `answeredOrder`: `{ player, option, timeTaken, correct }`. -/
structure Answer where
  player : String
  option : String
  timeTaken : Int
  correct : Bool
deriving DecidableEq, Repr

/-- A value held in `scores`: a number, or a non-empty string given by its
first character and the rest. -/
inductive Score where
  | num (n : Int)
  | text (first : Char) (rest : String)
deriving DecidableEq, Repr

instance (n : Nat) : OfNat Score n := ⟨Score.num n⟩

/-- The string a score is shown as. -/
def Score.toText : Score → String
  | Score.num n => toString n
  | Score.text first rest => String.singleton first ++ rest

/-- The own property of an object under `key`, if it has one. -/
def ownProp {α : Type} : List (String × α) → String → Option α
  | [], _ => none
  | (k, v) :: rest, key => if k = key then some v else ownProp rest key

/-- The own property `key` is defined or redefined with `value`: the entry of
`key` is replaced when there is one and one is added otherwise. -/
def defineOwn {α : Type} : List (String × α) → String → α → List (String × α)
  | [], key, value => [(key, value)]
  | (k, v) :: rest, key, value =>
      if k = key then (key, value) :: rest else (k, v) :: defineOwn rest key value

/-- The function-valued properties of `Object.prototype`, each with the name of
the function it holds. -/
def prototypeFunctions : List (String × String) :=
  [("constructor", "Object"),
   ("__defineGetter__", "__defineGetter__"),
   ("__defineSetter__", "__defineSetter__"),
   ("hasOwnProperty", "hasOwnProperty"),
   ("__lookupGetter__", "__lookupGetter__"),
   ("__lookupSetter__", "__lookupSetter__"),
   ("isPrototypeOf", "isPrototypeOf"),
   ("propertyIsEnumerable", "propertyIsEnumerable"),
   ("toString", "toString"),
   ("valueOf", "valueOf"),
   ("toLocaleString", "toLocaleString")]

/-- What a property read gives: the own property, a function inherited from
`Object.prototype` (with its name), `Object.prototype` itself for the key
`__proto__`, or `undefined`. -/
inductive Read (α : Type) where
  | own (value : α)
  | inheritedFunction (name : String)
  | prototype
  | undefined
deriving DecidableEq, Repr

/-- Property read `obj[key]` on an object created by `{}`. -/
def getProp {α : Type} (obj : List (String × α)) (key : String) : Read α :=
  match ownProp obj key with
  | some v => Read.own v
  | none =>
    match ownProp prototypeFunctions key with
    | some name => Read.inheritedFunction name
    | none => if key = "__proto__" then Read.prototype else Read.undefined

/-- Property write `obj[key] = value` of a number or a string on an object
created by `{}`: under the key `__proto__`, unless the object has an own
property of that name, the write reaches the setter of `Object.prototype`,
which ignores a value that is not an object; otherwise the own property is
defined. -/
def setProp {α : Type} (obj : List (String × α)) (key : String) (value : α) :
    List (String × α) :=
  match ownProp obj key with
  | some _ => defineOwn obj key value
  | none => if key = "__proto__" then obj else defineOwn obj key value

/-- The test `!x` on what a read of `scores` gives. -/
def isFalsy : Read Score → Bool
  | Read.own (Score.num n) => decide (n = 0)
  | Read.own (Score.text _ _) => false
  | Read.inheritedFunction _ => false
  | Read.prototype => false
  | Read.undefined => true

/-- The value of `(x || 0) + points` for what a read of `scores` gives: a sum
of numbers when `x` is a number or `undefined`, and otherwise the string of `x`
followed by the digits of `points`. -/
def orZeroPlus (x : Read Score) (points : Int) : Score :=
  match x with
  | Read.own (Score.num n) => Score.num ((if n = 0 then 0 else n) + points)
  | Read.own (Score.text first rest) => Score.text first (rest ++ toString points)
  | Read.inheritedFunction name =>
      Score.text 'f' ("unction " ++ name ++ "() \x7b [native code] \x7d" ++ toString points)
  | Read.prototype => Score.text '[' ("object Object]" ++ toString points)
  | Read.undefined => Score.num (0 + points)

/-- Payload of a socket.io message sent by the server. -/
inductive Msg where
  | questionsList (questions : List Question)
  | scoreUpdate (scores : List (String × Score)) (lastAnswerTime : List (String × Int))
  | newQuestion (id : Int) (text : String) (options : List String)
  | errorMessage (text : String)
  | yourPoints (points : Int)
  | answerUpdate (player : String) (option : String) (correct : Bool)
  | questionEnded (id : Option Int) (text : String) (answers : List Answer)
      (scores : List (String × Score))
deriving DecidableEq, Repr

/-- An emission: `socket.emit` reaches one connection, `io.emit` all of them. -/
inductive Emit where
  | toSocket (sock : Nat) (msg : Msg)
  | toAll (msg : Msg)
deriving DecidableEq, Repr

/-- The in-memory state of the server together with the runtime state its
handlers read and write. -/
structure State where
  scores : List (String × Score)
  currentQuestion : Option Question
  answeredOrder : List Answer
  lastAnswerTime : List (String × Int)
  questionTimer : Option Nat
  questionStartTime : Option Int
  /-- Timeouts scheduled and neither fired nor cleared: handle and delay in ms. -/
  pending : List (Nat × Nat)
  /-- The handle the next `setTimeout` returns. -/
  nextHandle : Nat
  /-- The connections whose `socket.data.playerName` is set, with its value. -/
  playerNames : List (Nat × String)
deriving DecidableEq, Repr

/-- The state when the process starts (lines 29-34), with nothing scheduled and
nobody connected. -/
def State.initial : State :=
  { scores := [], currentQuestion := none, answeredOrder := [], lastAnswerTime := [],
    questionTimer := none, questionStartTime := none,
    pending := [], nextHandle := 0, playerNames := [] }

/-- The read `socket.data.playerName`. -/
def playerNameOf (s : State) (sock : Nat) : Option String :=
  (s.playerNames.find? (fun e => e.1 == sock)).map (fun e => e.2)

/-- The write `socket.data.playerName = playerName`. -/
def setPlayerName (s : State) (sock : Nat) (playerName : String) : State :=
  { s with playerNames := (sock, playerName) :: s.playerNames.filter (fun e => e.1 != sock) }

/-- The runtime call `clearTimeout(handle)`: the timeout no longer fires; no
effect on a handle that is not pending. -/
def clearTimeout (handle : Nat) (s : State) : State :=
  { s with pending := s.pending.filter (fun t => t.1 != handle) }

/-- The runtime call `setTimeout(callback, delay)`: schedules a timeout under a
fresh handle, which it returns. -/
def setTimeout (delay : Nat) (s : State) : Nat × State :=
  (s.nextHandle,
   { s with pending := s.pending ++ [(s.nextHandle, delay)], nextHandle := s.nextHandle + 1 })

/-! ## The two functions -/

/-- Function `startQuestion(question)` (lines 115-123). -/
def startQuestion (question : Question) (now : Int) (s : State) : State :=
  let s1 := { s with currentQuestion := some question, answeredOrder := [],
                     questionStartTime := some now }
  let s2 := match s1.questionTimer with
    | some handle => clearTimeout handle s1
    | none => s1
  let r := setTimeout (QUESTION_TIME_SEC * 1000) s2
  { r.2 with questionTimer := some r.1 }

/-- Function `endCurrentQuestion()` (lines 125-140). -/
def endCurrentQuestion (s : State) : State × List Emit :=
  match s.currentQuestion with
  | none => (s, [])
  | some q =>
    let out := [Emit.toAll (Msg.questionEnded q.id q.text s.answeredOrder s.scores)]
    let s1 := { s with currentQuestion := none, answeredOrder := [], questionStartTime := none }
    let s2 := match s1.questionTimer with
      | some handle => { clearTimeout handle s1 with questionTimer := none }
      | none => s1
    (s2, out)

/-! ## The socket handlers -/

/-- The argument of a `sendQuestion` message: a number that is an integer, a
number that is not (`0.5`), or a value whose `typeof` is not `"number"`. -/
inductive IndexArg where
  | integer (i : Int)
  | fractional
  | notNumber
deriving DecidableEq, Repr

/-- The guard of line 51: the value of `questions[qIndex]`, with the index,
when `qIndex` is of type number and the read is not `undefined`, which it is
unless `qIndex` is an integer within the array. -/
def questionAt (questions : List Question) : IndexArg → Option (Int × Question)
  | IndexArg.integer i =>
      if 0 ≤ i then (questions.get? i.toNat).map (fun q => (i, q)) else none
  | IndexArg.fractional => none
  | IndexArg.notNumber => none

/-- Handler of `connection` (lines 47-48). -/
def connection (questions : List Question) (sock : Nat) (s : State) : State × List Emit :=
  (s, [Emit.toSocket sock (Msg.questionsList questions),
       Emit.toSocket sock (Msg.scoreUpdate s.scores s.lastAnswerTime)])

/-- Handler of `sendQuestion` (lines 50-60). -/
def sendQuestion (questions : List Question) (qIndex : IndexArg) (now : Int) (s : State) :
    State × List Emit :=
  match questionAt questions qIndex with
  | none => (s, [])
  | some (i, q) =>
    let s1 := startQuestion q now s
    (s1, [Emit.toAll (Msg.newQuestion (q.id.getD i) q.text q.options),
          Emit.toAll (Msg.scoreUpdate s1.scores s1.lastAnswerTime)])

/-- Handler of `join` (lines 62-68). -/
def join (sock : Nat) (playerName : String) (s : State) : State × List Emit :=
  if playerName = "" then (s, [])
  else
    let s1 := setPlayerName s sock playerName
    let s2 :=
      if isFalsy (getProp s1.scores playerName) then
        { s1 with scores := setProp s1.scores playerName 0 }
      else s1
    (s2, [Emit.toAll (Msg.scoreUpdate s2.scores s2.lastAnswerTime)])

/-- Text sent when `socket.data.playerName` is missing (line 73). -/
def NotJoined : String := "Please join with a name before answering."

/-- Text sent when `currentQuestion` is null (line 77). -/
def NoActiveQuestion : String := "There is no active question right now."

/-- Text sent when the player is already in `answeredOrder` (line 82). -/
def DuplicateAnswer : String := "You already answered this question."

/-- The body of `submitAnswer` from line 85 on, for a player that passed the
three guards while `question` is the current one. -/
def acceptAnswer (sock : Nat) (playerName : String) (question : Question) (option : String)
    (now : Int) (s : State) : State × List Emit :=
  let answeredAt := now
  let timeTaken := answeredAt - s.questionStartTime.getD 0
  let s1 := { s with lastAnswerTime := setProp s.lastAnswerTime playerName timeTaken }
  let correct : Bool := decide (option = question.correct)
  let s2 := { s1 with answeredOrder := s1.answeredOrder ++
      [{ player := playerName, option := option, timeTaken := timeTaken, correct := correct }] }
  let correctSoFar : Int := ((s2.answeredOrder.filter (fun a => a.correct)).length : Nat)
  let r : State × List Emit :=
    if correct then
      let positionIndex := correctSoFar - 1
      let points := max (10 - positionIndex) 0
      let total := orZeroPlus (getProp s2.scores playerName) points
      ({ s2 with scores := setProp s2.scores playerName total },
       [Emit.toSocket sock (Msg.yourPoints points)])
    else (s2, [Emit.toSocket sock (Msg.yourPoints 0)])
  (r.1, r.2 ++ [Emit.toAll (Msg.scoreUpdate r.1.scores r.1.lastAnswerTime),
                Emit.toAll (Msg.answerUpdate playerName option correct)])

/-- Handler of `submitAnswer` (lines 70-104). -/
def submitAnswer (sock : Nat) (option : String) (now : Int) (s : State) : State × List Emit :=
  match playerNameOf s sock with
  | none => (s, [Emit.toSocket sock (Msg.errorMessage NotJoined)])
  | some playerName =>
    if playerName = "" then (s, [Emit.toSocket sock (Msg.errorMessage NotJoined)])
    else
      match s.currentQuestion with
      | none => (s, [Emit.toSocket sock (Msg.errorMessage NoActiveQuestion)])
      | some question =>
        match s.answeredOrder.find? (fun a => a.player == playerName) with
        | some _ => (s, [Emit.toSocket sock (Msg.errorMessage DuplicateAnswer)])
        | none => acceptAnswer sock playerName question option now s

/-- Handler of `endQuestion` (lines 106-108). -/
def endQuestion (s : State) : State × List Emit :=
  endCurrentQuestion s

/-- The callback given to `setTimeout` in `startQuestion` (lines 120-122), run
by the event loop when the timeout `handle` fires: a timeout fires only while
it is pending, and is no longer pending once it has fired. -/
def timeoutFires (handle : Nat) (s : State) : State × List Emit :=
  if s.pending.any (fun t => t.1 == handle) then
    endCurrentQuestion { s with pending := s.pending.filter (fun t => t.1 != handle) }
  else (s, [])

/-! ## The event loop -/

/-- What the event loop can deliver to the server. -/
inductive Event where
  | connection (sock : Nat)
  | sendQuestion (qIndex : IndexArg) (now : Int)
  | join (sock : Nat) (playerName : String)
  | submitAnswer (sock : Nat) (option : String) (now : Int)
  | endQuestion
  | timeout (handle : Nat)
  | disconnect (sock : Nat)
deriving DecidableEq, Repr

/-- One event handled to completion. -/
def step (questions : List Question) (e : Event) (s : State) : State × List Emit :=
  match e with
  | Event.connection sock => connection questions sock s
  | Event.sendQuestion qIndex now => sendQuestion questions qIndex now s
  | Event.join sock playerName => join sock playerName s
  | Event.submitAnswer sock option now => submitAnswer sock option now s
  | Event.endQuestion => endQuestion s
  | Event.timeout handle => timeoutFires handle s
  | Event.disconnect _ => (s, [])

/-- A queue of events handled one after the other; the emissions are
concatenated in order. -/
def run (questions : List Question) : List Event → State → State × List Emit
  | [], s => (s, [])
  | e :: es, s =>
    let r := step questions e s
    let r2 := run questions es r.1
    (r2.1, r.2 ++ r2.2)

/-- A state the server can be in: the outcome of some queue of events handled
from the initial state. -/
def Reachable (questions : List Question) (s : State) : Prop :=
  ∃ es : List Event, (run questions es State.initial).1 = s

/-! ## Observations on the emissions -/

/-- The points reported by the `yourPoints` messages of a list of emissions. -/
def yourPointsOf : List Emit → List Int
  | [] => []
  | Emit.toSocket _ (Msg.yourPoints p) :: rest => p :: yourPointsOf rest
  | Emit.toAll (Msg.yourPoints p) :: rest => p :: yourPointsOf rest
  | _ :: rest => yourPointsOf rest

/-- The texts of the `errorMessage` messages of a list of emissions. -/
def errorsOf : List Emit → List String
  | [] => []
  | Emit.toSocket _ (Msg.errorMessage t) :: rest => t :: errorsOf rest
  | Emit.toAll (Msg.errorMessage t) :: rest => t :: errorsOf rest
  | _ :: rest => errorsOf rest

/-- Whether an emission is a `questionEnded` message. -/
def isQuestionEnded : Emit → Bool
  | Emit.toSocket _ (Msg.questionEnded _ _ _ _) => true
  | Emit.toAll (Msg.questionEnded _ _ _ _) => true
  | _ => false

/-- The score shown for a player: the number held by its own entry of
`scores`, and zero when there is no such number. -/
def scoreOf (s : State) (playerName : String) : Int :=
  match ownProp s.scores playerName with
  | some (Score.num n) => n
  | _ => 0

/-- The read `scores[playerName]` gives a number or `undefined`. -/
def hasNumericScore (s : State) (playerName : String) : Bool :=
  match getProp s.scores playerName with
  | Read.own (Score.num _) => true
  | Read.undefined => true
  | _ => false

/-- Number of records of the answer log that are marked correct. -/
def correctCount (log : List Answer) : Nat :=
  (log.filter (fun a => a.correct)).length

/-- The points of the scoring rule for an answer arriving when the log is
`log`: `max(10 - k, 0)` for a correct one, `k` being the number of correct
records already in the log, and `0` for an incorrect one. -/
def awardFor (log : List Answer) (correct : Bool) : Int :=
  if correct then max (10 - (correctCount log : Int)) 0 else 0

/-- A queue of `submitAnswer` events, given the connection, the option and the
time of each. -/
def submitEvents (subs : List (Nat × String × Int)) : List Event :=
  subs.map (fun x => Event.submitAnswer x.1 x.2.1 x.2.2)

/-- Which submissions of a queue choose the correct answer of `q`. -/
def flagsOf (q : Question) (subs : List (Nat × String × Int)) : List Bool :=
  subs.map (fun x => decide (x.2.1 = q.correct))

/-- The awards of the scoring rule for a run of answers of which only the
correctness is known, `rank` correct answers having arrived before: a correct
answer gets `max(10 - rank, 0)` and raises the rank, an incorrect one gets 0. -/
def rankAwards : Nat → List Bool → List Int
  | _, [] => []
  | rank, true :: rest => max (10 - (rank : Int)) 0 :: rankAwards (rank + 1) rest
  | rank, false :: rest => 0 :: rankAwards rank rest

/-! ## Properties of the deadline timeouts -/

/-- The handles of the pending timeouts are below the counter of the runtime:
the handle returned by the next `setTimeout` is a fresh one. -/
def freshHandles (s : State) : Prop :=
  ∀ t ∈ s.pending, t.1 < s.nextHandle

instance (s : State) : Decidable (freshHandles s) :=
  inferInstanceAs (Decidable (∀ t ∈ s.pending, t.1 < s.nextHandle))

/-- The pending timeouts are the one held in `questionTimer`, if any, and
`questionTimer` is set exactly when a question is active. -/
def timerInv (s : State) : Prop :=
  s.pending.map Prod.fst = s.questionTimer.toList
    ∧ s.questionTimer.isSome = s.currentQuestion.isSome

instance (s : State) : Decidable (timerInv s) :=
  inferInstanceAs (Decidable (s.pending.map Prod.fst = s.questionTimer.toList
    ∧ s.questionTimer.isSome = s.currentQuestion.isSome))

/-- The timeout `old` belongs to the past: its handle was returned by an earlier
`setTimeout`, and every pending timeout has a later handle. -/
def handleRetired (old : Nat) (s : State) : Prop :=
  old < s.nextHandle ∧ ∀ t ∈ s.pending, old < t.1

/-- Number of `questionEnded` messages in a list of emissions. -/
def endedCount (out : List Emit) : Nat :=
  (out.filter isQuestionEnded).length

/-- The scoreboard `b` shows every player with the score it has in `a`, an
absent entry counting as zero, and keeps every entry of `a`. -/
def sameScores (a b : List (String × Score)) : Prop :=
  ∀ p : String, (ownProp b p).getD 0 = (ownProp a p).getD 0
    ∧ ∀ v, ownProp a p = some v → ownProp b p = some v

/-- Events that neither start nor end a question nor submit an answer. -/
def isLobbyEvent : Event → Bool
  | Event.connection _ => true
  | Event.join _ _ => true
  | Event.disconnect _ => true
  | _ => false

/-! ## Properties of the answer log and of the scores -/

/-- No two records of the answer log have the same player. -/
def onePerPlayer (log : List Answer) : Prop :=
  (log.map (fun a => a.player)).Nodup

instance (log : List Answer) : Decidable (onePerPlayer log) :=
  inferInstanceAs (Decidable ((log.map (fun a : Answer => a.player)).Nodup))

/-- The order in which an entry of `scores` moves: a number to a number not
smaller, a string to the same string followed by further characters (which
`>=` of JavaScript, comparing strings in dictionary order, accepts as well). -/
def scoreLe : Score → Score → Prop
  | Score.num a, Score.num b => a ≤ b
  | Score.text c r, Score.text c2 r2 => c = c2 ∧ ∃ more : String, r2 = r ++ more
  | _, _ => False

/-- Every entry of the scoreboard `a` is an entry of `b`, with a score that is
not smaller. -/
def scoresGrow (a b : List (String × Score)) : Prop :=
  ∀ (p : String) (v : Score), ownProp a p = some v → ∃ w, ownProp b p = some w ∧ scoreLe v w

/-- An index that selects no record of the bank: a negative integer, an integer
not below the length of the bank, a number that is not an integer, or a value
that is not a number. -/
def outOfRange (questions : List Question) : IndexArg → Prop
  | IndexArg.integer j => j < 0 ∨ (questions.length : Int) ≤ j
  | IndexArg.fractional => True
  | IndexArg.notNumber => True

/-- Events that neither start nor end a question. -/
def duringQuestion : Event → Bool
  | Event.connection _ => true
  | Event.join _ _ => true
  | Event.submitAnswer _ _ _ => true
  | Event.disconnect _ => true
  | _ => false

/-- The number an entry of `scores` counts for in a sum of scores: its value
when it is a number. -/
def Score.toInt : Score → Int
  | Score.num n => n
  | Score.text _ _ => 0

/-- The sum of the scores of all the entries of `scores`. -/
def totalScore (s : State) : Int :=
  (s.scores.map (fun e => e.2.toInt)).sum

/-- The points given in all to the first `n` correct answers of a question:
`max(10 - j, 0)` summed over `j < n`. -/
def awardsTotal : Nat → Int
  | 0 => 0
  | n + 1 => awardsTotal n + max (10 - (n : Int)) 0

/-- What `newQuestion` may show of a question: its id, text and options, not
its correct answer. -/
def publicView (q : Question) : Option Int × String × List String :=
  (q.id, q.text, q.options)

/-! ## Sample data -/

/-- A one-question bank. -/
def sampleBank : List Question :=
  [{ id := some 1, text := "2+2?", options := ["3", "4"], correct := "4" }]

/-- The bank `sampleBank` with another correct answer. -/
def sampleBankOther : List Question :=
  [{ id := some 1, text := "2+2?", options := ["3", "4"], correct := "3" }]

/-- The question of `sampleBank`. -/
def sampleQuestion : Question :=
  { id := some 1, text := "2+2?", options := ["3", "4"], correct := "4" }

/-- Players A, B and C have joined on connections 1, 2 and 3 and the question
of `sampleBank` has been sent at time 1000. -/
def sampleActive : State :=
  { scores := [("A", 0), ("B", 0), ("C", 0)], currentQuestion := some sampleQuestion,
    answeredOrder := [], lastAnswerTime := [],
    questionTimer := some 0, questionStartTime := some 1000,
    pending := [(0, 15000)], nextHandle := 1,
    playerNames := [(3, "C"), (2, "B"), (1, "A")] }

/-- The state `sampleActive` after A has answered "4" at time 2000. -/
def sampleAnswered : State :=
  { sampleActive with
    scores := [("A", 10), ("B", 0), ("C", 0)],
    answeredOrder := [{ player := "A", option := "4", timeTaken := 1000, correct := true }],
    lastAnswerTime := [("A", 1000)] }

/-- Player A has joined on connection 1 and no question has been sent. -/
def sampleJoined : State :=
  (run sampleBank [Event.connection 1, Event.join 1 "A"] State.initial).1

/-- The answers of A ("4"), B ("3") and C ("4"), in this order. -/
def sampleSubs : List (Nat × String × Int) :=
  [(1, "4", 2000), (2, "3", 3000), (3, "4", 4000)]

/-- Eleven players join on connections 1 to 11, the question of `sampleBank`
is sent, and the first nine players answer "4", which is correct. -/
def nineCorrectEvents : List Event :=
  [Event.join 1 "P1", Event.join 2 "P2", Event.join 3 "P3", Event.join 4 "P4",
   Event.join 5 "P5", Event.join 6 "P6", Event.join 7 "P7", Event.join 8 "P8",
   Event.join 9 "P9", Event.join 10 "P10", Event.join 11 "P11",
   Event.sendQuestion (IndexArg.integer 0) 1000,
   Event.submitAnswer 1 "4" 1100, Event.submitAnswer 2 "4" 1200, Event.submitAnswer 3 "4" 1300,
   Event.submitAnswer 4 "4" 1400, Event.submitAnswer 5 "4" 1500, Event.submitAnswer 6 "4" 1600,
   Event.submitAnswer 7 "4" 1700, Event.submitAnswer 8 "4" 1800, Event.submitAnswer 9 "4" 1900]

/-- The state after `nineCorrectEvents`. -/
def sampleNine : State :=
  (run sampleBank nineCorrectEvents State.initial).1

/-- The state `sampleNine` after P10 has answered "4" as well. -/
def sampleTen : State :=
  (submitAnswer 10 "4" 2000 sampleNine).1

/-- The scenario of the specification: A, B and C join on connections 1, 2 and
3, question 0 of `sampleBank` is sent at time 0, A answers "4" after 1 s, B
answers "3" after 2 s, C answers "4" after 3 s, and the question is ended. -/
def scenarioEvents : List Event :=
  [Event.join 1 "A", Event.join 2 "B", Event.join 3 "C",
   Event.sendQuestion (IndexArg.integer 0) 0,
   Event.submitAnswer 1 "4" 1000, Event.submitAnswer 2 "3" 2000,
   Event.submitAnswer 3 "4" 3000, Event.endQuestion]

/-- A player named `__proto__` joins on connection 1, a player named
`constructor` on connection 2, and the question of `sampleBank` is sent. -/
def inheritedNameEvents : List Event :=
  [Event.join 1 "__proto__", Event.join 2 "constructor",
   Event.sendQuestion (IndexArg.integer 0) 1000]

/-- The state after `inheritedNameEvents`. -/
def sampleInherited : State :=
  (run sampleBank inheritedNameEvents State.initial).1

/-- Ten players join on connections 1 to 10, the first under the name
`__proto__`, and the question of `sampleBank` is sent. -/
def protoTenStart : State :=
  (run sampleBank
    [Event.join 1 "__proto__", Event.join 2 "P2", Event.join 3 "P3", Event.join 4 "P4",
     Event.join 5 "P5", Event.join 6 "P6", Event.join 7 "P7", Event.join 8 "P8",
     Event.join 9 "P9", Event.join 10 "P10", Event.sendQuestion (IndexArg.integer 0) 1000]
    State.initial).1

/-- The ten players of `protoTenStart` answer "4", which is correct, one after
the other. -/
def tenCorrectAnswers : List Event :=
  [Event.submitAnswer 1 "4" 1100, Event.submitAnswer 2 "4" 1200, Event.submitAnswer 3 "4" 1300,
   Event.submitAnswer 4 "4" 1400, Event.submitAnswer 5 "4" 1500, Event.submitAnswer 6 "4" 1600,
   Event.submitAnswer 7 "4" 1700, Event.submitAnswer 8 "4" 1800, Event.submitAnswer 9 "4" 1900,
   Event.submitAnswer 10 "4" 2000]

/-- A player named `constructor` has joined on connection 1, the question of
`sampleBank` has been sent and the player has answered it correctly. -/
def sampleConstructor : State :=
  (run sampleBank [Event.join 1 "constructor", Event.sendQuestion (IndexArg.integer 0) 1000,
    Event.submitAnswer 1 "4" 2000] State.initial).1

/-- Two connections join under the same name A, the question of `sampleBank`
is sent, and both connections submit an answer. -/
def sameNameEvents : List Event :=
  [Event.join 1 "A", Event.join 2 "A", Event.sendQuestion (IndexArg.integer 0) 1000,
   Event.submitAnswer 1 "3" 2000, Event.submitAnswer 2 "4" 3000]

end Quiz

namespace Quiz

/-! ## Lemmas on dictionaries -/

theorem ownProp_defineOwn_same {α : Type} (d : List (String × α)) (key : String) (value : α) :
    ownProp (defineOwn d key value) key = some value := by
  induction d with
  | nil => simp [defineOwn, ownProp]
  | cons e rest ih =>
    obtain ⟨k, v⟩ := e
    by_cases h : k = key
    · simp [defineOwn, ownProp, h]
    · simp [defineOwn, ownProp, h, ih]

theorem ownProp_defineOwn_other {α : Type} (d : List (String × α)) (key other : String)
    (value : α) (h : other ≠ key) :
    ownProp (defineOwn d key value) other = ownProp d other := by
  induction d with
  | nil =>
    have h2 : ¬ key = other := fun e => h e.symm
    simp [defineOwn, ownProp, h2]
  | cons e rest ih =>
    obtain ⟨k, v⟩ := e
    by_cases hk : k = key
    · have h2 : ¬ key = other := fun e => h e.symm
      simp [defineOwn, ownProp, hk, h2]
    · by_cases ho : k = other
      · subst ho
        simp [defineOwn, ownProp, hk]
      · simp [defineOwn, ownProp, hk, ho, ih]

theorem ownProp_setProp_other {α : Type} (d : List (String × α)) (key other : String)
    (value : α) (h : other ≠ key) :
    ownProp (setProp d key value) other = ownProp d other := by
  unfold setProp
  split
  · exact ownProp_defineOwn_other d key other value h
  · split
    · rfl
    · exact ownProp_defineOwn_other d key other value h

theorem ownProp_setProp_of_own {α : Type} (d : List (String × α)) (key : String)
    (value old : α) (h : ownProp d key = some old) :
    ownProp (setProp d key value) key = some value := by
  unfold setProp
  rw [h]
  exact ownProp_defineOwn_same d key value

theorem ownProp_setProp_of_key {α : Type} (d : List (String × α)) (key : String)
    (value : α) (h : key ≠ "__proto__") :
    ownProp (setProp d key value) key = some value := by
  unfold setProp
  split
  · exact ownProp_defineOwn_same d key value
  · rw [if_neg h]
    exact ownProp_defineOwn_same d key value

theorem setProp_proto_dropped {α : Type} (d : List (String × α)) (value : α)
    (h : ownProp d "__proto__" = none) : setProp d "__proto__" value = d := by
  unfold setProp
  rw [h]
  rfl

theorem getProp_setProp_other {α : Type} (d : List (String × α)) (key other : String)
    (value : α) (h : other ≠ key) :
    getProp (setProp d key value) other = getProp d other := by
  unfold getProp
  rw [ownProp_setProp_other d key other value h]

theorem getProp_of_own {α : Type} (d : List (String × α)) (key : String) (v : α)
    (h : ownProp d key = some v) : getProp d key = Read.own v := by
  unfold getProp
  rw [h]

theorem ownProp_of_getProp_own {α : Type} (d : List (String × α)) (key : String) (v : α)
    (h : getProp d key = Read.own v) : ownProp d key = some v := by
  unfold getProp at h
  cases ho : ownProp d key with
  | some w =>
    rw [ho] at h
    simp only [Read.own.injEq] at h
    rw [h]
  | none =>
    rw [ho] at h
    simp only at h
    split at h
    · cases h
    · split at h <;> cases h

theorem ownProp_of_getProp_undefined {α : Type} (d : List (String × α)) (key : String)
    (h : getProp d key = Read.undefined) : ownProp d key = none ∧ key ≠ "__proto__" := by
  unfold getProp at h
  cases ho : ownProp d key with
  | some w => rw [ho] at h; cases h
  | none =>
    rw [ho] at h
    simp only at h
    split at h
    · cases h
    · split at h
      · cases h
      · rename_i hk
        exact ⟨rfl, hk⟩

/-! ## Lemmas on `submitAnswer` -/

theorem find?_player_none (log : List Answer) (playerName : String)
    (h : ∀ a ∈ log, a.player ≠ playerName) :
    log.find? (fun a => a.player == playerName) = none := by
  rw [List.find?_eq_none]
  intro a ha
  simpa using h a ha

theorem submitAnswer_accept (s : State) (sock : Nat) (playerName : String) (q : Question)
    (option : String) (now : Int)
    (hjoin : playerNameOf s sock = some playerName) (hname : playerName ≠ "")
    (hq : s.currentQuestion = some q)
    (hnew : ∀ a ∈ s.answeredOrder, a.player ≠ playerName) :
    submitAnswer sock option now s = acceptAnswer sock playerName q option now s := by
  simp [submitAnswer, hjoin, hname, hq, find?_player_none _ _ hnew]

theorem correctCount_append (log : List Answer) (a : Answer) :
    correctCount (log ++ [a]) = correctCount log + (if a.correct then 1 else 0) := by
  cases h : a.correct <;> simp [correctCount, List.filter_append, h]

theorem acceptAnswer_scores_eq (s : State) (sock : Nat) (playerName : String) (q : Question)
    (option : String) (now : Int) :
    (acceptAnswer sock playerName q option now s).1.scores
      = if option = q.correct then
          setProp s.scores playerName
            (orZeroPlus (getProp s.scores playerName)
              (max (10 - (correctCount s.answeredOrder : Int)) 0))
        else s.scores := by
  by_cases h : option = q.correct
  · have hc := correctCount_append s.answeredOrder
      { player := playerName, option := q.correct,
        timeTaken := now - s.questionStartTime.getD 0, correct := true }
    simp only [correctCount] at hc
    simp [acceptAnswer, h, correctCount, hc]
  · simp [acceptAnswer, h]

theorem scoreOf_setProp_orZeroPlus (s : State) (playerName : String) (points : Int)
    (hnum : hasNumericScore s playerName = true) :
    (match ownProp (setProp s.scores playerName
        (orZeroPlus (getProp s.scores playerName) points)) playerName with
      | some (Score.num n) => n
      | _ => 0) = scoreOf s playerName + points := by
  unfold hasNumericScore at hnum
  cases hr : getProp s.scores playerName with
  | own v =>
    have hown := ownProp_of_getProp_own _ _ _ hr
    cases v with
    | num n =>
      rw [ownProp_setProp_of_own _ _ _ _ hown]
      simp only [orZeroPlus, scoreOf, hown]
      by_cases hn : n = 0
      · simp [hn]
      · simp [hn]
    | text c r => rw [hr] at hnum; simp at hnum
  | inheritedFunction name => rw [hr] at hnum; simp at hnum
  | prototype => rw [hr] at hnum; simp at hnum
  | undefined =>
    obtain ⟨hown, hkey⟩ := ownProp_of_getProp_undefined _ _ hr
    rw [ownProp_setProp_of_key _ _ _ hkey]
    simp [orZeroPlus, scoreOf, hown]

theorem acceptAnswer_scores (s : State) (sock : Nat) (playerName : String) (q : Question)
    (option : String) (now : Int) (hnum : hasNumericScore s playerName = true) :
    scoreOf (acceptAnswer sock playerName q option now s).1 playerName
      = scoreOf s playerName + awardFor s.answeredOrder (decide (option = q.correct)) := by
  have hsc := acceptAnswer_scores_eq s sock playerName q option now
  by_cases h : option = q.correct
  · rw [if_pos h] at hsc
    have := scoreOf_setProp_orZeroPlus s playerName
      (max (10 - (correctCount s.answeredOrder : Int)) 0) hnum
    unfold scoreOf at this ⊢
    rw [hsc, this]
    simp [awardFor, h]
  · rw [if_neg h] at hsc
    unfold scoreOf
    rw [hsc]
    simp [awardFor, h]

theorem acceptAnswer_yourPoints (s : State) (sock : Nat) (playerName : String) (q : Question)
    (option : String) (now : Int) :
    yourPointsOf (acceptAnswer sock playerName q option now s).2
      = [awardFor s.answeredOrder (decide (option = q.correct))] := by
  by_cases h : option = q.correct
  · have hc := correctCount_append s.answeredOrder
      { player := playerName, option := q.correct,
        timeTaken := now - s.questionStartTime.getD 0, correct := true }
    simp only [correctCount] at hc
    simp [acceptAnswer, awardFor, h, yourPointsOf, correctCount, hc]
  · simp [acceptAnswer, awardFor, h, yourPointsOf]

end Quiz

namespace Quiz

/-! ## Scoring of an accepted answer -/

theorem acceptAnswer_currentQuestion (s : State) (sock : Nat) (playerName : String)
    (q : Question) (option : String) (now : Int) :
    (acceptAnswer sock playerName q option now s).1.currentQuestion = s.currentQuestion := by
  by_cases h : option = q.correct <;> simp [acceptAnswer, h]

theorem acceptAnswer_playerNames (s : State) (sock : Nat) (playerName : String)
    (q : Question) (option : String) (now : Int) :
    (acceptAnswer sock playerName q option now s).1.playerNames = s.playerNames := by
  by_cases h : option = q.correct <;> simp [acceptAnswer, h]

theorem acceptAnswer_answeredOrder (s : State) (sock : Nat) (playerName : String)
    (q : Question) (option : String) (now : Int) :
    (acceptAnswer sock playerName q option now s).1.answeredOrder
      = s.answeredOrder ++
          [{ player := playerName,
             option := option,
             timeTaken := now - s.questionStartTime.getD 0,
             correct := decide (option = q.correct) }] := by
  by_cases h : option = q.correct <;> simp [acceptAnswer, h]

theorem sampleActive_reachable :
    (run sampleBank [Event.join 1 "A", Event.join 2 "B", Event.join 3 "C",
      Event.sendQuestion (IndexArg.integer 0) 1000] State.initial).1 = sampleActive := by
  decide

theorem sampleAnswered_reachable :
    (submitAnswer 1 "4" 2000 sampleActive).1 = sampleAnswered := by
  decide

/-- In a state with an active question `q`, for a player who has joined on
connection `sock` and has no record in the answer log, `submitAnswer(option)`
reports in its one `yourPoints` message, sent to the submitting connection,
`max(10 - k, 0)` points when `option` is `q.correct`, `k` being the number of
correct records in the log before the submission, and `0` points otherwise;
when `scores` reads a number or `undefined` under the name of the player, that
amount is added to the score of the player. -/
theorem submitAnswer_awards_of_numeric (s : State) (sock : Nat) (playerName : String)
    (q : Question) (option : String) (now : Int)
    (hjoin : playerNameOf s sock = some playerName) (hname : playerName ≠ "")
    (hq : s.currentQuestion = some q)
    (hnew : ∀ a ∈ s.answeredOrder, a.player ≠ playerName) :
    (hasNumericScore s playerName = true →
      scoreOf (submitAnswer sock option now s).1 playerName
        = scoreOf s playerName
          + (if option = q.correct then max (10 - (correctCount s.answeredOrder : Int)) 0
              else 0))
    ∧ yourPointsOf (submitAnswer sock option now s).2
        = [if option = q.correct then max (10 - (correctCount s.answeredOrder : Int)) 0 else 0]
    ∧ (option = q.correct →
        (correctCount (submitAnswer sock option now s).1.answeredOrder : Int) - 1
          = correctCount s.answeredOrder) := by
  rw [submitAnswer_accept s sock playerName q option now hjoin hname hq hnew]
  refine ⟨?_, ?_, ?_⟩
  · intro hnum
    rw [acceptAnswer_scores s sock playerName q option now hnum]
    simp [awardFor]
  · rw [acceptAnswer_yourPoints]
    simp [awardFor]
  · intro h
    rw [acceptAnswer_answeredOrder, correctCount_append]
    simp [h]

/-- C1, failing input. The players `__proto__` (connection 1) and
`constructor` (connection 2) have joined and the question of `sampleBank` is
active, with an empty answer log. The correct answer of `__proto__` is
reported `yourPoints 10`, but `scores` is left as it was, without an entry for
this player: the write of line 95 is dropped. The correct answer of
`constructor` that follows is reported `yourPoints 9`, and the entry written
for this player is the string `function Object() { [native code] }9`. -/
theorem inherited_name_points_not_added :
    playerNameOf sampleInherited 1 = some "__proto__"
    ∧ playerNameOf sampleInherited 2 = some "constructor"
    ∧ sampleInherited.currentQuestion = some sampleQuestion
    ∧ sampleInherited.answeredOrder = []
    ∧ sampleInherited.scores = []
    ∧ yourPointsOf (submitAnswer 1 "4" 2000 sampleInherited).2 = [10]
    ∧ (submitAnswer 1 "4" 2000 sampleInherited).1.scores = []
    ∧ scoreOf (submitAnswer 1 "4" 2000 sampleInherited).1 "__proto__" = 0
    ∧ yourPointsOf
        (submitAnswer 2 "4" 3000 (submitAnswer 1 "4" 2000 sampleInherited).1).2 = [9]
    ∧ (submitAnswer 2 "4" 3000 (submitAnswer 1 "4" 2000 sampleInherited).1).1.scores.map
          (fun e => (e.1, e.2.toText))
        = [("constructor", "function Object() \x7b [native code] \x7d9")] := by
  decide

end Quiz

namespace Quiz

/-! ## A run of answers on one question -/

theorem rankAwards_length (flags : List Bool) : ∀ rank, (rankAwards rank flags).length = flags.length := by
  induction flags with
  | nil => intro rank; rfl
  | cons b rest ih => intro rank; cases b <;> simp [rankAwards, ih]

theorem rankAwards_getElem? (flags : List Bool) :
    ∀ (rank i : Nat) (b : Bool), flags[i]? = some b →
      (rankAwards rank flags)[i]?
        = some (if b then max (10 - ((rank + (flags.take i).count true : Nat) : Int)) 0 else 0) := by
  induction flags with
  | nil => intro rank i b h; simp at h
  | cons c rest ih =>
    intro rank i b h
    cases i with
    | zero =>
      simp at h
      subst h
      cases c <;> simp [rankAwards]
    | succ i =>
      simp at h
      cases c with
      | false =>
        simp [rankAwards, ih rank i b h]
      | true =>
        simp only [rankAwards, List.getElem?_cons_succ, ih (rank + 1) i b h, List.take_succ_cons,
          List.count_cons_self]
        congr 3
        omega

theorem count_take_lt (flags : List Bool) (i j : Nat) (hij : i < j)
    (hi : flags[i]? = some true) :
    (flags.take i).count true < (flags.take j).count true := by
  have h1 : (flags.take (i + 1)).count true = (flags.take i).count true + 1 := by
    rw [List.take_succ, hi]
    simp
  have h2 : (flags.take (i + 1)).count true ≤ (flags.take j).count true := by
    apply List.Sublist.count_le
    have : flags.take (i + 1) = (flags.take j).take (i + 1) := by
      rw [List.take_take]
      congr 1
      omega
    rw [this]
    exact List.take_sublist _ _
  omega

end Quiz

namespace Quiz

theorem yourPointsOf_append (xs ys : List Emit) :
    yourPointsOf (xs ++ ys) = yourPointsOf xs ++ yourPointsOf ys := by
  induction xs with
  | nil => rfl
  | cons e rest ih =>
    cases e with
    | toSocket sock m => cases m <;> simp [yourPointsOf, ih]
    | toAll m => cases m <;> simp [yourPointsOf, ih]

theorem playerNameOf_acceptAnswer (s : State) (sock : Nat) (playerName : String)
    (q : Question) (option : String) (now : Int) (other : Nat) :
    playerNameOf (acceptAnswer sock playerName q option now s).1 other = playerNameOf s other := by
  simp [playerNameOf, acceptAnswer_playerNames]

theorem run_submitEvents_awards (questions : List Question) (q : Question)
    (subs : List (Nat × String × Int)) :
    ∀ s : State, s.currentQuestion = some q →
      (∀ x ∈ subs, ∃ name, playerNameOf s x.1 = some name ∧ name ≠ ""
          ∧ ∀ a ∈ s.answeredOrder, a.player ≠ name) →
      (subs.map (fun x => playerNameOf s x.1)).Nodup →
      yourPointsOf (run questions (submitEvents subs) s).2
        = rankAwards (correctCount s.answeredOrder) (flagsOf q subs) := by
  induction subs with
  | nil => intro s _ _ _; rfl
  | cons x rest ih =>
    intro s hq hplayers hdistinct
    obtain ⟨name, hname, hne, hfresh⟩ := hplayers x (List.mem_cons_self _ _)
    have hacc := submitAnswer_accept s x.1 name q x.2.1 x.2.2 hname hne hq hfresh
    have hstep : step questions (Event.submitAnswer x.1 x.2.1 x.2.2) s
        = acceptAnswer x.1 name q x.2.1 x.2.2 s := by
      simp [step, hacc]
    rw [List.map_cons, List.nodup_cons] at hdistinct
    obtain ⟨hnotin, hrest⟩ := hdistinct
    have hq2 : (acceptAnswer x.1 name q x.2.1 x.2.2 s).1.currentQuestion = some q := by
      rw [acceptAnswer_currentQuestion, hq]
    have hplayers2 : ∀ y ∈ rest, ∃ n, playerNameOf (acceptAnswer x.1 name q x.2.1 x.2.2 s).1 y.1
          = some n ∧ n ≠ ""
          ∧ ∀ a ∈ (acceptAnswer x.1 name q x.2.1 x.2.2 s).1.answeredOrder, a.player ≠ n := by
      intro y hy
      obtain ⟨n, hn, hnne, hnfresh⟩ := hplayers y (List.mem_cons_of_mem _ hy)
      refine ⟨n, ?_, hnne, ?_⟩
      · rw [playerNameOf_acceptAnswer, hn]
      · intro a ha
        rw [acceptAnswer_answeredOrder, List.mem_append] at ha
        rcases ha with ha | ha
        · exact hnfresh a ha
        · simp at ha
          subst ha
          intro heq
          apply hnotin
          rw [List.mem_map]
          refine ⟨y, hy, ?_⟩
          simp only at heq
          rw [hn, hname, heq]
    have hdistinct2 : (rest.map (fun y =>
        playerNameOf (acceptAnswer x.1 name q x.2.1 x.2.2 s).1 y.1)).Nodup := by
      have : (fun y : Nat × String × Int =>
          playerNameOf (acceptAnswer x.1 name q x.2.1 x.2.2 s).1 y.1)
          = (fun y => playerNameOf s y.1) := by
        funext y
        exact playerNameOf_acceptAnswer s x.1 name q x.2.1 x.2.2 y.1
      rw [this]
      exact hrest
    have hih := ih (acceptAnswer x.1 name q x.2.1 x.2.2 s).1 hq2 hplayers2 hdistinct2
    have hrun : run questions (submitEvents (x :: rest)) s
        = ((run questions (submitEvents rest) (acceptAnswer x.1 name q x.2.1 x.2.2 s).1).1,
           (acceptAnswer x.1 name q x.2.1 x.2.2 s).2
             ++ (run questions (submitEvents rest) (acceptAnswer x.1 name q x.2.1 x.2.2 s).1).2) := by
      simp [submitEvents, run, hstep]
    rw [hrun]
    simp only
    rw [yourPointsOf_append, acceptAnswer_yourPoints, hih, acceptAnswer_answeredOrder,
      correctCount_append]
    by_cases hc : x.2.1 = q.correct
    · simp [flagsOf, rankAwards, awardFor, hc]
    · simp [flagsOf, rankAwards, awardFor, hc]

/-- The points reported. From a state with an active question `q`, for a queue of
`submitAnswer` events of joined players with pairwise distinct names, none of
whom is in the answer log yet: the points reported, in arrival order, are those
of the scoring rule applied to the correctness flags alone (`rankAwards`);
the answer at position `i` gets `max(10 - j, 0)` when correct, `j` being the
number of correct answers of the question before it, and `0` when incorrect;
of two correct answers the later gets strictly less, or 0; and another such
queue, with other players, options or question but the same correctness flags
and as many earlier correct answers, is awarded the same points. With an empty
log the correct answers get 10, 9, 8, ... -/
theorem submit_run_awards_by_rank (questions : List Question) (q : Question)
    (subs : List (Nat × String × Int)) (s : State)
    (hq : s.currentQuestion = some q)
    (hplayers : ∀ x ∈ subs, ∃ name, playerNameOf s x.1 = some name ∧ name ≠ ""
        ∧ ∀ a ∈ s.answeredOrder, a.player ≠ name)
    (hdistinct : (subs.map (fun x => playerNameOf s x.1)).Nodup) :
    yourPointsOf (run questions (submitEvents subs) s).2
        = rankAwards (correctCount s.answeredOrder) (flagsOf q subs)
    ∧ (∀ (i : Nat) (b : Bool), (flagsOf q subs)[i]? = some b →
        (yourPointsOf (run questions (submitEvents subs) s).2)[i]?
          = some (if b then
              max (10 - ((correctCount s.answeredOrder
                + ((flagsOf q subs).take i).count true : Nat) : Int)) 0
            else 0))
    ∧ (∀ (i j : Nat), i < j → (flagsOf q subs)[i]? = some true →
        (flagsOf q subs)[j]? = some true →
        ∃ a b : Int, (yourPointsOf (run questions (submitEvents subs) s).2)[i]? = some a
          ∧ (yourPointsOf (run questions (submitEvents subs) s).2)[j]? = some b
          ∧ (b < a ∨ b = 0))
    ∧ (∀ (q2 : Question) (subs2 : List (Nat × String × Int)) (s2 : State),
        s2.currentQuestion = some q2 →
        (∀ x ∈ subs2, ∃ name, playerNameOf s2 x.1 = some name ∧ name ≠ ""
          ∧ ∀ a ∈ s2.answeredOrder, a.player ≠ name) →
        (subs2.map (fun x => playerNameOf s2 x.1)).Nodup →
        flagsOf q2 subs2 = flagsOf q subs →
        correctCount s2.answeredOrder = correctCount s.answeredOrder →
        yourPointsOf (run questions (submitEvents subs2) s2).2
          = yourPointsOf (run questions (submitEvents subs) s).2) := by
  have hA := run_submitEvents_awards questions q subs s hq hplayers hdistinct
  refine ⟨hA, ?_, ?_, ?_⟩
  · intro i b hb
    rw [hA]
    exact rankAwards_getElem? _ _ i b hb
  · intro i j hij hi hj
    rw [hA]
    refine ⟨_, _, rankAwards_getElem? _ _ i true hi, rankAwards_getElem? _ _ j true hj, ?_⟩
    have hlt := count_take_lt (flagsOf q subs) i j hij hi
    simp only [if_true]
    omega
  · intro q2 subs2 s2 hq2 hplayers2 hdistinct2 hflags hcount
    rw [hA, run_submitEvents_awards questions q2 subs2 s2 hq2 hplayers2 hdistinct2, hflags,
      hcount]

end Quiz

namespace Quiz

theorem submit_run_awards_by_rank_witness :
    (sampleActive.currentQuestion = some sampleQuestion
      ∧ (sampleSubs.map (fun x => playerNameOf sampleActive x.1)).Nodup)
    ∧ yourPointsOf (run sampleBank (submitEvents sampleSubs) sampleActive).2 = [10, 0, 9]
    ∧ (∀ (i : Nat) (b : Bool), (flagsOf sampleQuestion sampleSubs)[i]? = some b →
        (yourPointsOf (run sampleBank (submitEvents sampleSubs) sampleActive).2)[i]?
          = some (if b then
              max (10 - ((correctCount sampleActive.answeredOrder
                + ((flagsOf sampleQuestion sampleSubs).take i).count true : Nat) : Int)) 0
            else 0)) := by
  have hplayers : ∀ x ∈ sampleSubs, ∃ name, playerNameOf sampleActive x.1 = some name
      ∧ name ≠ "" ∧ ∀ a ∈ sampleActive.answeredOrder, a.player ≠ name := by
    intro x hx
    simp only [sampleSubs, List.mem_cons, List.mem_singleton, List.not_mem_nil, or_false] at hx
    rcases hx with rfl | rfl | rfl
    · exact ⟨"A", by decide, by decide, by decide⟩
    · exact ⟨"B", by decide, by decide, by decide⟩
    · exact ⟨"C", by decide, by decide, by decide⟩
  have h := submit_run_awards_by_rank sampleBank sampleQuestion sampleSubs sampleActive
    (by decide) hplayers (by decide)
  refine ⟨⟨by decide, by decide⟩, ?_, h.2.1⟩
  rw [h.1]
  decide

/-- C2, failing input. From `sampleInherited` (question of `sampleBank` active,
empty log) the two joined players `__proto__` and `constructor`, distinct,
both answer correctly. The points reported are 10 and 9, as the rule says, but
they are not awarded to the scoreboard: after the run `scores` holds no entry
for `__proto__` and a string for `constructor`, so that neither has a score
of 10 or 9. The same two answers by the players A and B of `sampleActive`
leave the scores 10 and 9: what is awarded depends on the player names. -/
theorem inherited_name_run_not_credited :
    sampleInherited.currentQuestion = some sampleQuestion
    ∧ sampleInherited.answeredOrder = []
    ∧ ([(1, "4", 2000), (2, "4", 3000)].map
          (fun x : Nat × String × Int => playerNameOf sampleInherited x.1)).Nodup
    ∧ flagsOf sampleQuestion [(1, "4", 2000), (2, "4", 3000)] = [true, true]
    ∧ yourPointsOf (run sampleBank (submitEvents [(1, "4", 2000), (2, "4", 3000)])
        sampleInherited).2 = [10, 9]
    ∧ (run sampleBank (submitEvents [(1, "4", 2000), (2, "4", 3000)])
        sampleInherited).1.scores.map (fun e => (e.1, e.2.toText))
        = [("constructor", "function Object() \x7b [native code] \x7d9")]
    ∧ scoreOf (run sampleBank (submitEvents [(1, "4", 2000), (2, "4", 3000)])
        sampleInherited).1 "__proto__" = 0
    ∧ scoreOf (run sampleBank (submitEvents [(1, "4", 2000), (2, "4", 3000)])
        sampleInherited).1 "constructor" = 0
    ∧ yourPointsOf (run sampleBank (submitEvents [(1, "4", 2000), (2, "4", 3000)])
        sampleActive).2 = [10, 9]
    ∧ (run sampleBank (submitEvents [(1, "4", 2000), (2, "4", 3000)])
        sampleActive).1.scores = [("A", 10), ("B", 9), ("C", 0)] := by
  decide

/-! ## The tenth correct answer -/

/-- C3, as stated, fails: after `nineCorrectEvents` nine correct answers are
recorded for the active question; the correct answer of P10 is then the tenth
one in arrival order, and it is awarded 1 point, not 0. -/
theorem tenth_correct_answer_awarded_one :
    sampleNine.currentQuestion = some sampleQuestion
    ∧ correctCount sampleNine.answeredOrder = 9
    ∧ playerNameOf sampleNine 10 = some "P10"
    ∧ (∀ a ∈ sampleNine.answeredOrder, a.player ≠ "P10")
    ∧ "4" = sampleQuestion.correct
    ∧ yourPointsOf (submitAnswer 10 "4" 2000 sampleNine).2 = [1]
    ∧ scoreOf sampleNine "P10" = 0
    ∧ scoreOf (submitAnswer 10 "4" 2000 sampleNine).1 "P10" = 1 := by
  decide

/-- C3, amended. In a state with an active question `q`, for a joined player
with no record in the answer log who submits `q.correct`: when ten or more
correct records are already in the log (the answer is the eleventh correct one
or a later one) the points reported are 0, and the score of a player under
whose name `scores` reads a number or `undefined` is unchanged; when exactly
nine are (the answer is the tenth correct one) the points reported are 1, and
the score of such a player grows by 1. -/
theorem eleventh_correct_answer_awarded_zero (s : State) (sock : Nat) (playerName : String)
    (q : Question) (option : String) (now : Int)
    (hjoin : playerNameOf s sock = some playerName) (hname : playerName ≠ "")
    (hq : s.currentQuestion = some q)
    (hnew : ∀ a ∈ s.answeredOrder, a.player ≠ playerName)
    (hcorrect : option = q.correct) :
    (10 ≤ correctCount s.answeredOrder →
        yourPointsOf (submitAnswer sock option now s).2 = [0]
        ∧ (hasNumericScore s playerName = true →
            scoreOf (submitAnswer sock option now s).1 playerName = scoreOf s playerName))
    ∧ (correctCount s.answeredOrder = 9 →
        yourPointsOf (submitAnswer sock option now s).2 = [1]
        ∧ (hasNumericScore s playerName = true →
            scoreOf (submitAnswer sock option now s).1 playerName
              = scoreOf s playerName + 1)) := by
  rw [submitAnswer_accept s sock playerName q option now hjoin hname hq hnew,
    acceptAnswer_yourPoints]
  constructor
  · intro h
    have hz : max (10 - (correctCount s.answeredOrder : Int)) 0 = 0 := by omega
    refine ⟨by simp [awardFor, hcorrect, hz], fun hnum => ?_⟩
    rw [acceptAnswer_scores s sock playerName q option now hnum]
    simp [awardFor, hcorrect, hz]
  · intro h
    refine ⟨by simp [awardFor, hcorrect, h], fun hnum => ?_⟩
    rw [acceptAnswer_scores s sock playerName q option now hnum]
    simp [awardFor, hcorrect, h]

theorem eleventh_correct_answer_awarded_zero_witness :
    (playerNameOf sampleTen 11 = some "P11" ∧ "P11" ≠ ""
      ∧ sampleTen.currentQuestion = some sampleQuestion
      ∧ (∀ a ∈ sampleTen.answeredOrder, a.player ≠ "P11")
      ∧ "4" = sampleQuestion.correct
      ∧ 10 ≤ correctCount sampleTen.answeredOrder
      ∧ hasNumericScore sampleTen "P11" = true)
    ∧ yourPointsOf (submitAnswer 11 "4" 2100 sampleTen).2 = [0]
    ∧ scoreOf (submitAnswer 11 "4" 2100 sampleTen).1 "P11" = scoreOf sampleTen "P11" :=
  ⟨⟨by decide, by decide, by decide, by decide, by decide, by decide, by decide⟩,
   ((eleventh_correct_answer_awarded_zero sampleTen 11 "P11" sampleQuestion "4" 2100
    (by decide) (by decide) (by decide) (by decide) (by decide)).1 (by decide)).1,
   ((eleventh_correct_answer_awarded_zero sampleTen 11 "P11" sampleQuestion "4" 2100
    (by decide) (by decide) (by decide) (by decide) (by decide)).1 (by decide)).2
      (by decide)⟩

end Quiz

namespace Quiz

/-! ## Rejected submissions -/

/-- C4. In a state with an active question, a `submitAnswer` of a joined
player who already has a record in the answer log, whatever the option and
whether or not that record is correct, sends `DuplicateAnswer` to the
submitting connection and nothing else (no `yourPoints`), and leaves the state
as it is, in particular the scores, the answer log and the latencies. -/
theorem submitAnswer_duplicate_rejected (s : State) (sock : Nat) (playerName : String)
    (q : Question) (option : String) (now : Int)
    (hjoin : playerNameOf s sock = some playerName) (hname : playerName ≠ "")
    (hq : s.currentQuestion = some q)
    (hold : ∃ a ∈ s.answeredOrder, a.player = playerName) :
    (submitAnswer sock option now s).2 = [Emit.toSocket sock (Msg.errorMessage DuplicateAnswer)]
    ∧ yourPointsOf (submitAnswer sock option now s).2 = []
    ∧ (submitAnswer sock option now s).1 = s
    ∧ (submitAnswer sock option now s).1.scores = s.scores
    ∧ (submitAnswer sock option now s).1.answeredOrder = s.answeredOrder
    ∧ (submitAnswer sock option now s).1.lastAnswerTime = s.lastAnswerTime := by
  obtain ⟨a, ha, hap⟩ := hold
  have hfind : (s.answeredOrder.find? (fun a => a.player == playerName)).isSome = true := by
    rw [List.find?_isSome]
    exact ⟨a, ha, by simp [hap]⟩
  obtain ⟨b, hb⟩ := Option.isSome_iff_exists.mp hfind
  have h : submitAnswer sock option now s
      = (s, [Emit.toSocket sock (Msg.errorMessage DuplicateAnswer)]) := by
    simp [submitAnswer, hjoin, hname, hq, hb]
  rw [h]
  simp [yourPointsOf]

theorem submitAnswer_duplicate_rejected_witness :
    (playerNameOf sampleAnswered 1 = some "A" ∧ "A" ≠ ""
      ∧ sampleAnswered.currentQuestion = some sampleQuestion
      ∧ ∃ a ∈ sampleAnswered.answeredOrder, a.player = "A")
    ∧ (submitAnswer 1 "3" 2500 sampleAnswered).2
        = [Emit.toSocket 1 (Msg.errorMessage DuplicateAnswer)]
    ∧ yourPointsOf (submitAnswer 1 "3" 2500 sampleAnswered).2 = []
    ∧ (submitAnswer 1 "3" 2500 sampleAnswered).1 = sampleAnswered
    ∧ (submitAnswer 1 "3" 2500 sampleAnswered).1.scores = sampleAnswered.scores
    ∧ (submitAnswer 1 "3" 2500 sampleAnswered).1.answeredOrder = sampleAnswered.answeredOrder
    ∧ (submitAnswer 1 "3" 2500 sampleAnswered).1.lastAnswerTime
        = sampleAnswered.lastAnswerTime :=
  ⟨⟨by decide, by decide, by decide, ⟨_, List.mem_singleton.mpr rfl, rfl⟩⟩,
   submitAnswer_duplicate_rejected sampleAnswered 1 "A" sampleQuestion "3" 2500
    (by decide) (by decide) (by decide) ⟨_, List.mem_singleton.mpr rfl, rfl⟩⟩

theorem submitAnswer_idle (s : State) (sock : Nat) (playerName : String)
    (option : String) (now : Int)
    (hjoin : playerNameOf s sock = some playerName) (hname : playerName ≠ "")
    (hq : s.currentQuestion = none) :
    submitAnswer sock option now s
      = (s, [Emit.toSocket sock (Msg.errorMessage NoActiveQuestion)]) := by
  simp [submitAnswer, hjoin, hname, hq]

theorem endCurrentQuestion_currentQuestion (s : State) :
    (endCurrentQuestion s).1.currentQuestion = none := by
  unfold endCurrentQuestion
  cases hq : s.currentQuestion with
  | none => simpa using hq
  | some q => cases ht : s.questionTimer <;> simp [ht, clearTimeout]

theorem endCurrentQuestion_playerNames (s : State) :
    (endCurrentQuestion s).1.playerNames = s.playerNames := by
  unfold endCurrentQuestion
  cases hq : s.currentQuestion with
  | none => rfl
  | some q => cases ht : s.questionTimer <;> simp [ht, clearTimeout]

theorem timeoutFires_currentQuestion (s : State) (handle : Nat)
    (h : handle ∈ s.pending.map Prod.fst) :
    (timeoutFires handle s).1.currentQuestion = none := by
  have hany : s.pending.any (fun t => t.1 == handle) = true := by
    rw [List.any_eq_true]
    obtain ⟨t, ht, rfl⟩ := List.mem_map.mp h
    exact ⟨t, ht, by simp⟩
  simp only [timeoutFires, hany, if_true]
  exact endCurrentQuestion_currentQuestion _

theorem timeoutFires_playerNames (s : State) (handle : Nat) :
    (timeoutFires handle s).1.playerNames = s.playerNames := by
  unfold timeoutFires
  split
  · rw [endCurrentQuestion_playerNames]
  · rfl

theorem step_idle_of_not_sendQuestion (questions : List Question) (e : Event) (s : State)
    (hq : s.currentQuestion = none) (he : ∀ i t, e ≠ Event.sendQuestion i t) :
    (step questions e s).1.currentQuestion = none := by
  cases e with
  | connection sock => simpa [step, connection] using hq
  | sendQuestion i t => exact absurd rfl (he i t)
  | join sock name =>
    simp only [step, join]
    split
    · exact hq
    · simp only [setPlayerName]
      split <;> exact hq
  | submitAnswer sock option now =>
    simp only [step, submitAnswer, hq]
    split
    · exact hq
    · split <;> exact hq
  | endQuestion => simp only [step, endQuestion]; exact endCurrentQuestion_currentQuestion s
  | timeout handle =>
    simp only [step, timeoutFires]
    split
    · exact endCurrentQuestion_currentQuestion _
    · exact hq
  | disconnect sock => simpa [step] using hq

theorem run_idle_of_no_sendQuestion (questions : List Question) (es : List Event) :
    ∀ s : State, s.currentQuestion = none → (∀ i t, Event.sendQuestion i t ∉ es) →
      (run questions es s).1.currentQuestion = none := by
  induction es with
  | nil => intro s hq _; exact hq
  | cons e rest ih =>
    intro s hq hno
    simp only [run]
    apply ih
    · apply step_idle_of_not_sendQuestion questions e s hq
      intro i t heq
      exact hno i t (heq ▸ List.mem_cons_self _ _)
    · intro i t hmem
      exact hno i t (List.mem_cons_of_mem _ hmem)

end Quiz

namespace Quiz

/-- C5. A `submitAnswer` of a joined player in a state with no active question
sends `NoActiveQuestion` to the submitting connection and nothing else, and
leaves the state as it is (scores, answer log and latencies included). There is
no active question after `endQuestion`, after the deadline timeout has fired,
and in every state reached from the initial one without a `sendQuestion`. -/
theorem submitAnswer_no_active_question (s : State) (sock : Nat) (playerName : String)
    (option : String) (now : Int)
    (hjoin : playerNameOf s sock = some playerName) (hname : playerName ≠ "") :
    (s.currentQuestion = none →
        submitAnswer sock option now s
          = (s, [Emit.toSocket sock (Msg.errorMessage NoActiveQuestion)]))
    ∧ submitAnswer sock option now (endQuestion s).1
        = ((endQuestion s).1, [Emit.toSocket sock (Msg.errorMessage NoActiveQuestion)])
    ∧ (∀ handle ∈ s.pending.map Prod.fst,
        submitAnswer sock option now (timeoutFires handle s).1
          = ((timeoutFires handle s).1,
             [Emit.toSocket sock (Msg.errorMessage NoActiveQuestion)]))
    ∧ (∀ (questions : List Question) (es : List Event),
        (∀ i t, Event.sendQuestion i t ∉ es) → (run questions es State.initial).1 = s →
        submitAnswer sock option now s
          = (s, [Emit.toSocket sock (Msg.errorMessage NoActiveQuestion)])) := by
  refine ⟨fun hq => submitAnswer_idle s sock playerName option now hjoin hname hq, ?_, ?_, ?_⟩
  · apply submitAnswer_idle _ sock playerName option now _ hname
    · exact endCurrentQuestion_currentQuestion s
    · simp only [playerNameOf, endQuestion, endCurrentQuestion_playerNames]
      exact hjoin
  · intro handle hmem
    apply submitAnswer_idle _ sock playerName option now _ hname
    · exact timeoutFires_currentQuestion s handle hmem
    · simp only [playerNameOf, timeoutFires_playerNames]
      exact hjoin
  · intro questions es hno hrun
    apply submitAnswer_idle s sock playerName option now hjoin hname
    rw [← hrun]
    exact run_idle_of_no_sendQuestion questions es State.initial rfl hno

theorem submitAnswer_no_active_question_witness :
    (playerNameOf sampleJoined 1 = some "A" ∧ "A" ≠ "" ∧ sampleJoined.currentQuestion = none)
    ∧ submitAnswer 1 "4" 500 sampleJoined
        = (sampleJoined, [Emit.toSocket 1 (Msg.errorMessage NoActiveQuestion)]) :=
  ⟨⟨by decide, by decide, by decide⟩,
   (submitAnswer_no_active_question sampleJoined 1 "A" "4" 500 (by decide) (by decide)).1
     (by decide)⟩

/-! ## Submissions of a connection that has not joined -/

theorem playerNameOf_setPlayerName_other (s : State) (sock other : Nat) (playerName : String)
    (h : other ≠ sock) :
    playerNameOf (setPlayerName s sock playerName) other = playerNameOf s other := by
  have hne : ¬ sock = other := fun e => h e.symm
  have hb : (sock == other) = false := by simpa using hne
  simp only [playerNameOf, setPlayerName, List.find?_cons, hb]
  congr 1
  induction s.playerNames with
  | nil => rfl
  | cons e rest ih =>
    obtain ⟨c, n⟩ := e
    by_cases he : c = sock
    · subst he
      simp [List.filter_cons, List.find?_cons, hb, ih]
    · by_cases he2 : c = other
      · subst he2
        simp [List.filter_cons, List.find?_cons, h]
      · simp [List.filter_cons, he, List.find?_cons, he2, ih]

theorem startQuestion_playerNames (q : Question) (now : Int) (s : State) :
    (startQuestion q now s).playerNames = s.playerNames := by
  unfold startQuestion
  cases ht : s.questionTimer <;> simp [ht, setTimeout, clearTimeout]

theorem submitAnswer_playerNames (s : State) (sock : Nat) (option : String) (now : Int) :
    (submitAnswer sock option now s).1.playerNames = s.playerNames := by
  unfold submitAnswer
  split
  · rfl
  · split
    · rfl
    · split
      · rfl
      · split
        · rfl
        · exact acceptAnswer_playerNames _ _ _ _ _ _

theorem step_playerNameOf (questions : List Question) (e : Event) (s : State) (sock : Nat)
    (he : ∀ name, e = Event.join sock name → name = "") :
    playerNameOf (step questions e s).1 sock = playerNameOf s sock := by
  cases e with
  | connection c => rfl
  | sendQuestion i t =>
    simp only [step, sendQuestion]
    split
    · rfl
    · simp only [playerNameOf, startQuestion_playerNames]
  | join c name =>
    simp only [step, join]
    split
    · rfl
    · rename_i hname
      have hc : sock ≠ c := by
        intro hsc
        subst hsc
        exact hname (he name rfl)
      have hset := playerNameOf_setPlayerName_other s c sock name hc
      split <;> exact hset
  | submitAnswer c option now =>
    simp only [step, playerNameOf, submitAnswer_playerNames]
  | endQuestion => simp only [step, endQuestion, playerNameOf, endCurrentQuestion_playerNames]
  | timeout handle => simp only [step, playerNameOf, timeoutFires_playerNames]
  | disconnect c => rfl

theorem run_playerNameOf (questions : List Question) (es : List Event) (sock : Nat) :
    ∀ s : State, (∀ name, Event.join sock name ∈ es → name = "") →
      playerNameOf (run questions es s).1 sock = playerNameOf s sock := by
  induction es with
  | nil => intro s _; rfl
  | cons e rest ih =>
    intro s hno
    simp only [run]
    rw [ih _ (fun name hmem => hno name (List.mem_cons_of_mem _ hmem))]
    apply step_playerNameOf
    intro name heq
    exact hno name (heq ▸ List.mem_cons_self _ _)

/-- C6. In every state, with or without an active question and whatever the
answer log, a `submitAnswer` on a connection whose `playerName` is absent or
empty sends `NotJoined` (a text different from the other two) to that
connection and nothing else, and leaves the whole state as it is. A `join` with
an empty name leaves the state as it is, and a connection that has sent no
`join` with a non-empty name has no `playerName`. -/
theorem submitAnswer_not_joined (s : State) (sock : Nat) (option : String) (now : Int)
    (h : playerNameOf s sock = none ∨ playerNameOf s sock = some "") :
    submitAnswer sock option now s = (s, [Emit.toSocket sock (Msg.errorMessage NotJoined)])
    ∧ NotJoined ≠ NoActiveQuestion ∧ NotJoined ≠ DuplicateAnswer
    ∧ join sock "" s = (s, [])
    ∧ (∀ (questions : List Question) (es : List Event),
        (∀ name, Event.join sock name ∈ es → name = "") →
        playerNameOf (run questions es State.initial).1 sock = none) := by
  refine ⟨?_, by decide, by decide, by simp [join], ?_⟩
  · rcases h with h | h <;> simp [submitAnswer, h]
  · intro questions es hno
    rw [run_playerNameOf questions es sock State.initial hno]
    rfl

theorem submitAnswer_not_joined_witness :
    (playerNameOf sampleAnswered 7 = none ∨ playerNameOf sampleAnswered 7 = some "")
    ∧ submitAnswer 7 "4" 2500 sampleAnswered
        = (sampleAnswered, [Emit.toSocket 7 (Msg.errorMessage NotJoined)])
    ∧ join 7 "" sampleAnswered = (sampleAnswered, []) :=
  ⟨Or.inl (by decide),
   (submitAnswer_not_joined sampleAnswered 7 "4" 2500 (Or.inl (by decide))).1,
   (submitAnswer_not_joined sampleAnswered 7 "4" 2500 (Or.inl (by decide))).2.2.2.1⟩

end Quiz

namespace Quiz

/-! ## Starting a question -/

theorem startQuestion_eq (q : Question) (now : Int) (s : State) :
    startQuestion q now s
      = { s with
          currentQuestion := some q
          answeredOrder := []
          questionStartTime := some now
          questionTimer := some s.nextHandle
          nextHandle := s.nextHandle + 1
          pending := (match s.questionTimer with
            | some old => s.pending.filter (fun t => t.1 != old)
            | none => s.pending) ++ [(s.nextHandle, QUESTION_TIME_SEC * 1000)] } := by
  unfold startQuestion
  cases ht : s.questionTimer <;> simp [ht, setTimeout, clearTimeout]

theorem filter_handle_of_timerInv (s : State) (old : Nat)
    (hinv : s.pending.map Prod.fst = s.questionTimer.toList) (ht : s.questionTimer = some old) :
    s.pending.filter (fun t => t.1 != old) = [] := by
  rw [List.filter_eq_nil_iff]
  intro t hmem
  have : t.1 ∈ s.pending.map Prod.fst := List.mem_map_of_mem _ hmem
  rw [hinv, ht] at this
  simp at this
  simp [this]

theorem pending_nil_of_timerInv (s : State)
    (hinv : s.pending.map Prod.fst = s.questionTimer.toList) (ht : s.questionTimer = none) :
    s.pending = [] := by
  rw [ht] at hinv
  simpa using hinv

theorem startQuestion_pending_of_timerInv (q : Question) (now : Int) (s : State)
    (hinv : s.pending.map Prod.fst = s.questionTimer.toList) :
    (startQuestion q now s).pending = [(s.nextHandle, QUESTION_TIME_SEC * 1000)] := by
  rw [startQuestion_eq]
  cases ht : s.questionTimer with
  | none => simp [pending_nil_of_timerInv s hinv ht]
  | some old => simp [filter_handle_of_timerInv s old hinv ht]

theorem filter_fresh (s : State) (hfresh : freshHandles s) :
    s.pending.filter (fun t => t.1 != s.nextHandle) = s.pending := by
  rw [List.filter_eq_self]
  intro t hmem
  have := hfresh t hmem
  simp only [bne_iff_ne, ne_eq]
  omega

theorem startQuestion_twice (q1 q2 : Question) (t1 t2 : Int) (s : State)
    (hfresh : freshHandles s) :
    startQuestion q2 t2 (startQuestion q1 t1 s)
      = startQuestion q2 t2 { s with nextHandle := s.nextHandle + 1 } := by
  have hf := filter_fresh s hfresh
  rw [startQuestion_eq q2 t2 (startQuestion q1 t1 s), startQuestion_eq q1 t1 s,
    startQuestion_eq q2 t2]
  cases ht : s.questionTimer with
  | none => simp [List.filter_append, hf]
  | some old =>
    have hf2 : (s.pending.filter (fun t => t.1 != old)).filter (fun t => t.1 != s.nextHandle)
        = s.pending.filter (fun t => t.1 != old) := by
      rw [List.filter_eq_self]
      intro t hmem
      have := hfresh t (List.mem_of_mem_filter hmem)
      simp only [bne_iff_ne, ne_eq]
      omega
    simp [List.filter_append, hf2]

end Quiz

namespace Quiz

theorem sendQuestion_valid (questions : List Question) (i : Nat) (q : Question) (now : Int)
    (s : State) (hq : questions.get? i = some q) :
    sendQuestion questions (IndexArg.integer i) now s
      = (startQuestion q now s,
         [Emit.toAll (Msg.newQuestion (q.id.getD i) q.text q.options),
          Emit.toAll (Msg.scoreUpdate (startQuestion q now s).scores
            (startQuestion q now s).lastAnswerTime)]) := by
  have hq2 : questions[i]? = some q := by simpa using hq
  simp [sendQuestion, questionAt, hq2]

/-- C7. For a valid index `i` with `questions[i] = q`, `sendQuestion(i)` runs
`startQuestion(q)` and broadcasts no `questionEnded`. In every state,
active or not, `startQuestion(q)` makes `q` the current question, empties the
answer log, records the start time, keeps the scores and arms a timeout of
`QUESTION_TIME_SEC` seconds under a fresh handle held in `questionTimer`; in a
state that satisfies the timer invariant this is then the only pending timeout,
the one of the superseded question being cleared. Starting twice in a row
gives the state of the second start alone (taken from a state whose handle
counter is one ahead, since a handle was used up), with an empty answer log. -/
theorem sendQuestion_starts_afresh (questions : List Question) (i : Nat) (q : Question)
    (now : Int) (s : State) (hq : questions.get? i = some q) :
    (sendQuestion questions (IndexArg.integer i) now s).1 = startQuestion q now s
    ∧ endedCount (sendQuestion questions (IndexArg.integer i) now s).2 = 0
    ∧ (startQuestion q now s).currentQuestion = some q
    ∧ (startQuestion q now s).answeredOrder = []
    ∧ (startQuestion q now s).questionStartTime = some now
    ∧ (startQuestion q now s).scores = s.scores
    ∧ (startQuestion q now s).questionTimer = some s.nextHandle
    ∧ (s.nextHandle, QUESTION_TIME_SEC * 1000) ∈ (startQuestion q now s).pending
    ∧ (timerInv s → freshHandles s →
        (startQuestion q now s).pending = [(s.nextHandle, QUESTION_TIME_SEC * 1000)]
        ∧ ∀ old, s.questionTimer = some old →
            old ∉ (startQuestion q now s).pending.map Prod.fst)
    ∧ (∀ (q1 : Question) (t1 : Int),
        (startQuestion q now (startQuestion q1 t1 s)).currentQuestion = some q
        ∧ (startQuestion q now (startQuestion q1 t1 s)).answeredOrder = []
        ∧ (startQuestion q now (startQuestion q1 t1 s)).questionStartTime = some now
        ∧ (startQuestion q now (startQuestion q1 t1 s)).scores = s.scores
        ∧ (freshHandles s →
            startQuestion q now (startQuestion q1 t1 s)
              = startQuestion q now { s with nextHandle := s.nextHandle + 1 })) := by
  refine ⟨?_, ?_, ?_, ?_, ?_, ?_, ?_, ?_, ?_, ?_⟩
  · rw [sendQuestion_valid questions i q now s hq]
  · rw [sendQuestion_valid questions i q now s hq]
    simp [endedCount, isQuestionEnded]
  · rw [startQuestion_eq]
  · rw [startQuestion_eq]
  · rw [startQuestion_eq]
  · rw [startQuestion_eq]
  · rw [startQuestion_eq]
  · rw [startQuestion_eq]
    simp
  · intro hinv hfresh
    have hp := startQuestion_pending_of_timerInv q now s hinv.1
    refine ⟨hp, ?_⟩
    intro old hold
    rw [hp]
    have hmem : old ∈ s.pending.map Prod.fst := by
      rw [hinv.1, hold]
      simp
    obtain ⟨t, ht, rfl⟩ := List.mem_map.mp hmem
    have := hfresh t ht
    simp only [List.map_cons, List.map_nil, List.mem_singleton]
    omega
  · intro q1 t1
    refine ⟨?_, ?_, ?_, ?_, ?_⟩
    · rw [startQuestion_eq]
    · rw [startQuestion_eq]
    · rw [startQuestion_eq]
    · rw [startQuestion_eq q now, startQuestion_eq q1 t1]
    · intro hfresh
      exact startQuestion_twice q1 q t1 now s hfresh

theorem sendQuestion_starts_afresh_witness :
    (sampleBank.get? 0 = some sampleQuestion ∧ timerInv sampleAnswered
      ∧ freshHandles sampleAnswered)
    ∧ (sendQuestion sampleBank (IndexArg.integer (0 : Nat)) 5000 sampleAnswered).1
        = startQuestion sampleQuestion 5000 sampleAnswered
    ∧ (startQuestion sampleQuestion 5000 sampleAnswered).answeredOrder = []
    ∧ (startQuestion sampleQuestion 5000 sampleAnswered).pending
        = [(sampleAnswered.nextHandle, QUESTION_TIME_SEC * 1000)]
    ∧ startQuestion sampleQuestion 5000 (startQuestion sampleQuestion 4000 sampleAnswered)
        = startQuestion sampleQuestion 5000
            { sampleAnswered with nextHandle := sampleAnswered.nextHandle + 1 } :=
  ⟨⟨by decide, by decide, by decide⟩,
   (sendQuestion_starts_afresh sampleBank 0 sampleQuestion 5000 sampleAnswered (by decide)).1,
   (sendQuestion_starts_afresh sampleBank 0 sampleQuestion 5000 sampleAnswered
      (by decide)).2.2.2.1,
   ((sendQuestion_starts_afresh sampleBank 0 sampleQuestion 5000 sampleAnswered
      (by decide)).2.2.2.2.2.2.2.2.1 (by decide) (by decide)).1,
   ((sendQuestion_starts_afresh sampleBank 0 sampleQuestion 5000 sampleAnswered
      (by decide)).2.2.2.2.2.2.2.2.2 sampleQuestion 4000).2.2.2.2 (by decide)⟩

end Quiz

namespace Quiz

/-! ## Ending a question -/

theorem endCurrentQuestion_eq (s : State) (q : Question) (hq : s.currentQuestion = some q) :
    endCurrentQuestion s
      = ({ s with
           currentQuestion := none
           answeredOrder := []
           questionStartTime := none
           questionTimer := none
           pending := (match s.questionTimer with
             | some old => s.pending.filter (fun t => t.1 != old)
             | none => s.pending) },
         [Emit.toAll (Msg.questionEnded q.id q.text s.answeredOrder s.scores)]) := by
  unfold endCurrentQuestion
  cases ht : s.questionTimer with
  | none => simp only [hq, ht]
  | some old => simp [hq, ht, clearTimeout]

theorem endCurrentQuestion_idle (s : State) (hq : s.currentQuestion = none) :
    endCurrentQuestion s = (s, []) := by
  simp [endCurrentQuestion, hq]

theorem any_handle_of_mem (pending : List (Nat × Nat)) (handle : Nat)
    (h : handle ∈ pending.map Prod.fst) :
    pending.any (fun t => t.1 == handle) = true := by
  rw [List.any_eq_true]
  obtain ⟨t, ht, rfl⟩ := List.mem_map.mp h
  exact ⟨t, ht, by simp⟩

theorem timeoutFires_pending (s : State) (handle : Nat) (h : handle ∈ s.pending.map Prod.fst) :
    timeoutFires handle s
      = endCurrentQuestion { s with pending := s.pending.filter (fun t => t.1 != handle) } := by
  simp [timeoutFires, any_handle_of_mem s.pending handle h]

theorem timeoutFires_not_pending (s : State) (handle : Nat)
    (h : handle ∉ s.pending.map Prod.fst) :
    timeoutFires handle s = (s, []) := by
  have : ¬ (s.pending.any (fun t => t.1 == handle) = true) := by
    rw [List.any_eq_true]
    rintro ⟨t, ht, heq⟩
    apply h
    rw [List.mem_map]
    exact ⟨t, ht, by simpa using heq⟩
  simp [timeoutFires, this]

theorem timeoutFires_eq_endQuestion (s : State) (handle : Nat) (hinv : timerInv s)
    (hq : s.currentQuestion ≠ none) (h : handle ∈ s.pending.map Prod.fst) :
    timeoutFires handle s = endQuestion s := by
  obtain ⟨q, hq2⟩ := Option.ne_none_iff_exists'.mp hq
  rw [hinv.1] at h
  have ht : s.questionTimer = some handle := by
    cases hh : s.questionTimer with
    | none => rw [hh] at h; simp at h
    | some old => rw [hh] at h; simp at h; rw [h]
  have hmem : handle ∈ s.pending.map Prod.fst := by rw [hinv.1, ht]; simp
  rw [timeoutFires_pending s handle hmem, endQuestion, endCurrentQuestion_eq s q hq2,
    endCurrentQuestion_eq _ q (by exact hq2)]
  simp [ht, filter_handle_of_timerInv s handle hinv.1 ht]

theorem sameScores_refl (a : List (String × Score)) : sameScores a a :=
  fun _ => ⟨rfl, fun _ h => h⟩

theorem sameScores_trans (a b c : List (String × Score)) (hab : sameScores a b)
    (hbc : sameScores b c) : sameScores a c :=
  fun p => ⟨((hbc p).1).trans (hab p).1, fun v h => (hbc p).2 v ((hab p).2 v h)⟩

theorem sameScores_setProp_zero (a : List (String × Score)) (name : String)
    (h : ownProp a name = none ∨ ownProp a name = some 0) :
    sameScores a (setProp a name 0) := by
  intro p
  by_cases hp : p = name
  · subst hp
    rcases h with h | h
    · by_cases hkey : p = "__proto__"
      · have hdrop : setProp a p 0 = a := by
          unfold setProp
          rw [h]
          simp [hkey]
        rw [hdrop]
        exact ⟨rfl, fun _ hv => hv⟩
      · rw [ownProp_setProp_of_key a p 0 hkey, h]
        exact ⟨rfl, fun v hv => by cases hv⟩
    · rw [ownProp_setProp_of_own a p 0 0 h, h]
      exact ⟨rfl, fun _ hv => hv⟩
  · rw [ownProp_setProp_other a name p 0 hp]
    exact ⟨rfl, fun _ hv => hv⟩

theorem ownProp_of_isFalsy (d : List (String × Score)) (key : String)
    (h : isFalsy (getProp d key) = true) :
    ownProp d key = none ∨ ownProp d key = some 0 := by
  cases hr : getProp d key with
  | own v =>
    have hown := ownProp_of_getProp_own d key v hr
    rw [hr] at h
    cases v with
    | num n =>
      simp only [isFalsy, decide_eq_true_eq] at h
      subst h
      exact Or.inr hown
    | text c r => simp [isFalsy] at h
  | inheritedFunction name => rw [hr] at h; simp [isFalsy] at h
  | prototype => rw [hr] at h; simp [isFalsy] at h
  | undefined => exact Or.inl (ownProp_of_getProp_undefined d key hr).1

theorem join_effect (sock : Nat) (name : String) (s : State) :
    (join sock name s).1.currentQuestion = s.currentQuestion
    ∧ (join sock name s).1.answeredOrder = s.answeredOrder
    ∧ (join sock name s).1.lastAnswerTime = s.lastAnswerTime
    ∧ (join sock name s).1.questionTimer = s.questionTimer
    ∧ (join sock name s).1.questionStartTime = s.questionStartTime
    ∧ (join sock name s).1.pending = s.pending
    ∧ (join sock name s).1.nextHandle = s.nextHandle
    ∧ sameScores s.scores (join sock name s).1.scores := by
  unfold join
  split
  · exact ⟨rfl, rfl, rfl, rfl, rfl, rfl, rfl, sameScores_refl _⟩
  · simp only [setPlayerName]
    split
    · rename_i hfalsy
      exact ⟨rfl, rfl, rfl, rfl, rfl, rfl, rfl,
        sameScores_setProp_zero _ _ (ownProp_of_isFalsy _ _ hfalsy)⟩
    · exact ⟨rfl, rfl, rfl, rfl, rfl, rfl, rfl, sameScores_refl _⟩

theorem run_lobby (questions : List Question) (es : List Event) :
    ∀ s : State, (∀ e ∈ es, isLobbyEvent e = true) →
      (run questions es s).1.currentQuestion = s.currentQuestion
      ∧ (run questions es s).1.answeredOrder = s.answeredOrder
      ∧ (run questions es s).1.pending = s.pending
      ∧ sameScores s.scores (run questions es s).1.scores
      ∧ endedCount (run questions es s).2 = 0 := by
  induction es with
  | nil => intro s _; exact ⟨rfl, rfl, rfl, sameScores_refl _, rfl⟩
  | cons e rest ih =>
    intro s hall
    have he := hall e (List.mem_cons_self _ _)
    have hrest := ih (step questions e s).1 (fun e2 h2 => hall e2 (List.mem_cons_of_mem _ h2))
    have hstep : (step questions e s).1.currentQuestion = s.currentQuestion
        ∧ (step questions e s).1.answeredOrder = s.answeredOrder
        ∧ (step questions e s).1.pending = s.pending
        ∧ sameScores s.scores (step questions e s).1.scores
        ∧ endedCount (step questions e s).2 = 0 := by
      cases e with
      | connection c => exact ⟨rfl, rfl, rfl, sameScores_refl _, rfl⟩
      | join c name =>
        have hj := join_effect c name s
        refine ⟨hj.1, hj.2.1, hj.2.2.2.2.2.1, hj.2.2.2.2.2.2.2, ?_⟩
        simp only [step, join]
        split
        · rfl
        · rfl
      | disconnect c => exact ⟨rfl, rfl, rfl, sameScores_refl _, rfl⟩
      | sendQuestion i t => simp [isLobbyEvent] at he
      | submitAnswer c o t => simp [isLobbyEvent] at he
      | endQuestion => simp [isLobbyEvent] at he
      | timeout h => simp [isLobbyEvent] at he
    simp only [run]
    refine ⟨hrest.1.trans hstep.1, hrest.2.1.trans hstep.2.1, hrest.2.2.1.trans hstep.2.2.1,
      sameScores_trans _ _ _ hstep.2.2.2.1 hrest.2.2.2.1, ?_⟩
    have h1 := hstep.2.2.2.2
    have h2 := hrest.2.2.2.2
    simp only [endedCount, List.filter_append, List.length_append] at h1 h2 ⊢
    omega

end Quiz

namespace Quiz

theorem timeoutFires_active (s : State) (q : Question) (handle : Nat)
    (hq : s.currentQuestion = some q) (h : handle ∈ s.pending.map Prod.fst) :
    timeoutFires handle s
      = ({ s with
           currentQuestion := none
           answeredOrder := []
           questionStartTime := none
           questionTimer := none
           pending := (match s.questionTimer with
             | some old => (s.pending.filter (fun t => t.1 != handle)).filter
                 (fun t => t.1 != old)
             | none => s.pending.filter (fun t => t.1 != handle)) },
         [Emit.toAll (Msg.questionEnded q.id q.text s.answeredOrder s.scores)]) := by
  rw [timeoutFires_pending s handle h, endCurrentQuestion_eq _ q (by exact hq)]

/-- C8. In a state with an active question `q`, `endQuestion` broadcasts one
message, `questionEnded` with the id and text of `q`, the answer log in its
order and the scores, and leaves no current question, an empty answer log, no
start time, no `questionTimer` and the scores as they were; in a state that
satisfies the timer invariant no timeout stays pending. The deadline timeout
firing does the same. When the timeout armed by `startQuestion(q)` fires after
events that are no submissions (connections, joins, disconnections), the
snapshot has an empty answer list and shows every player with the score held
when the question started; with no event in between it carries those scores
unchanged. -/
theorem endQuestion_snapshot_then_idle (s : State) (q : Question)
    (hq : s.currentQuestion = some q) :
    (endQuestion s).2 = [Emit.toAll (Msg.questionEnded q.id q.text s.answeredOrder s.scores)]
    ∧ (endQuestion s).1.currentQuestion = none
    ∧ (endQuestion s).1.answeredOrder = []
    ∧ (endQuestion s).1.questionStartTime = none
    ∧ (endQuestion s).1.questionTimer = none
    ∧ (endQuestion s).1.scores = s.scores
    ∧ (timerInv s → (endQuestion s).1.pending = [])
    ∧ (∀ handle ∈ s.pending.map Prod.fst,
        (timeoutFires handle s).2
          = [Emit.toAll (Msg.questionEnded q.id q.text s.answeredOrder s.scores)]
        ∧ (timeoutFires handle s).1.currentQuestion = none
        ∧ (timeoutFires handle s).1.answeredOrder = []
        ∧ (timeoutFires handle s).1.questionStartTime = none
        ∧ (timeoutFires handle s).1.questionTimer = none
        ∧ (timeoutFires handle s).1.scores = s.scores
        ∧ (timerInv s → (timeoutFires handle s).1.pending = []))
    ∧ (∀ (questions : List Question) (s0 : State) (now : Int) (es : List Event),
        (∀ e ∈ es, isLobbyEvent e = true) →
        ∃ shown : List (String × Score),
          (timeoutFires s0.nextHandle (run questions es (startQuestion q now s0)).1).2
            = [Emit.toAll (Msg.questionEnded q.id q.text [] shown)]
          ∧ sameScores s0.scores shown
          ∧ (es = [] → shown = s0.scores)) := by
  have hend := endCurrentQuestion_eq s q hq
  have hpend : timerInv s → (endQuestion s).1.pending = [] := by
    intro hinv
    rw [endQuestion, hend]
    cases ht : s.questionTimer with
    | none => simpa using pending_nil_of_timerInv s hinv.1 ht
    | some old => simpa using filter_handle_of_timerInv s old hinv.1 ht
  refine ⟨?_, ?_, ?_, ?_, ?_, ?_, hpend, ?_, ?_⟩
  · rw [endQuestion, hend]
  · rw [endQuestion, hend]
  · rw [endQuestion, hend]
  · rw [endQuestion, hend]
  · rw [endQuestion, hend]
  · rw [endQuestion, hend]
  · intro handle hmem
    have hfire := timeoutFires_active s q handle hq hmem
    refine ⟨?_, ?_, ?_, ?_, ?_, ?_, ?_⟩
    · rw [hfire]
    · rw [hfire]
    · rw [hfire]
    · rw [hfire]
    · rw [hfire]
    · rw [hfire]
    · intro hinv
      rw [timeoutFires_eq_endQuestion s handle hinv (by rw [hq]; simp) hmem]
      exact hpend hinv
  · intro questions s0 now es hall
    obtain ⟨h1, h2, h3, h4, _⟩ := run_lobby questions es (startQuestion q now s0) hall
    have hq1 : (run questions es (startQuestion q now s0)).1.currentQuestion = some q := by
      rw [h1, startQuestion_eq]
    have hmem : s0.nextHandle
        ∈ (run questions es (startQuestion q now s0)).1.pending.map Prod.fst := by
      rw [h3, startQuestion_eq]
      simp
    refine ⟨(run questions es (startQuestion q now s0)).1.scores, ?_, ?_, ?_⟩
    · rw [timeoutFires_active _ q s0.nextHandle hq1 hmem]
      simp only [h2]
      rw [startQuestion_eq]
    · have : (startQuestion q now s0).scores = s0.scores := by rw [startQuestion_eq]
      rw [← this]
      exact h4
    · intro hnil
      subst hnil
      simp only [run]
      rw [startQuestion_eq]

theorem endQuestion_snapshot_then_idle_witness :
    (sampleAnswered.currentQuestion = some sampleQuestion ∧ timerInv sampleAnswered)
    ∧ (endQuestion sampleAnswered).2
        = [Emit.toAll (Msg.questionEnded sampleQuestion.id sampleQuestion.text
            sampleAnswered.answeredOrder sampleAnswered.scores)]
    ∧ (endQuestion sampleAnswered).1.currentQuestion = none
    ∧ (endQuestion sampleAnswered).1.pending = [] :=
  ⟨⟨by decide, by decide⟩,
   (endQuestion_snapshot_then_idle sampleAnswered sampleQuestion (by decide)).1,
   (endQuestion_snapshot_then_idle sampleAnswered sampleQuestion (by decide)).2.1,
   (endQuestion_snapshot_then_idle sampleAnswered sampleQuestion (by decide)).2.2.2.2.2.2.1
     (by decide)⟩

end Quiz

namespace Quiz

/-! ## Ending twice -/

theorem endedCount_append (xs ys : List Emit) :
    endedCount (xs ++ ys) = endedCount xs + endedCount ys := by
  simp [endedCount, List.filter_append]

theorem endedCount_endCurrentQuestion (s : State) :
    (s.currentQuestion = none ∧ endedCount (endCurrentQuestion s).2 = 0)
    ∨ (endedCount (endCurrentQuestion s).2 = 1
        ∧ (endCurrentQuestion s).1.currentQuestion = none) := by
  cases hq : s.currentQuestion with
  | none =>
    left
    rw [endCurrentQuestion_idle s hq]
    exact ⟨rfl, rfl⟩
  | some q =>
    right
    refine ⟨?_, endCurrentQuestion_currentQuestion s⟩
    rw [endCurrentQuestion_eq s q hq]
    rfl

theorem endedCount_acceptAnswer (s : State) (sock : Nat) (playerName : String)
    (q : Question) (option : String) (now : Int) :
    endedCount (acceptAnswer sock playerName q option now s).2 = 0 := by
  by_cases h : option = q.correct <;> simp [acceptAnswer, h, endedCount, isQuestionEnded]

theorem endedCount_submitAnswer (s : State) (sock : Nat) (option : String) (now : Int) :
    endedCount (submitAnswer sock option now s).2 = 0 := by
  unfold submitAnswer
  split
  · rfl
  · split
    · rfl
    · split
      · rfl
      · split
        · rfl
        · exact endedCount_acceptAnswer _ _ _ _ _ _

theorem endedCount_join (s : State) (sock : Nat) (name : String) :
    endedCount (join sock name s).2 = 0 := by
  unfold join
  split
  · rfl
  · rfl

theorem step_endedCount (questions : List Question) (e : Event) (s : State)
    (he : ∀ i t, e ≠ Event.sendQuestion i t) :
    (endedCount (step questions e s).2 = 0
        ∧ (s.currentQuestion = none → (step questions e s).1.currentQuestion = none))
    ∨ (endedCount (step questions e s).2 = 1
        ∧ (step questions e s).1.currentQuestion = none) := by
  have hidle := step_idle_of_not_sendQuestion questions e s
  cases e with
  | connection c => exact Or.inl ⟨rfl, fun h => hidle h he⟩
  | sendQuestion i t => exact absurd rfl (he i t)
  | join c name => exact Or.inl ⟨endedCount_join s c name, fun h => hidle h he⟩
  | submitAnswer c o t => exact Or.inl ⟨endedCount_submitAnswer s c o t, fun h => hidle h he⟩
  | endQuestion =>
    rcases endedCount_endCurrentQuestion s with h | h
    · exact Or.inl ⟨h.2, fun h2 => hidle h2 he⟩
    · exact Or.inr h
  | timeout handle =>
    by_cases hp : handle ∈ s.pending.map Prod.fst
    · simp only [step]
      rw [timeoutFires_pending s handle hp]
      rcases endedCount_endCurrentQuestion
          { s with pending := s.pending.filter (fun t => t.1 != handle) } with h | h
      · exact Or.inl ⟨h.2, fun _ => endCurrentQuestion_currentQuestion _⟩
      · exact Or.inr h
    · simp only [step]
      rw [timeoutFires_not_pending s handle hp]
      exact Or.inl ⟨rfl, fun h => h⟩
  | disconnect c => exact Or.inl ⟨rfl, fun h => hidle h he⟩

theorem run_endedCount_idle (questions : List Question) (es : List Event) :
    ∀ s : State, s.currentQuestion = none → (∀ i t, Event.sendQuestion i t ∉ es) →
      endedCount (run questions es s).2 = 0 := by
  induction es with
  | nil => intro s _ _; rfl
  | cons e rest ih =>
    intro s hq hno
    have he : ∀ i t, e ≠ Event.sendQuestion i t :=
      fun i t heq => hno i t (heq ▸ List.mem_cons_self _ _)
    have hrest : ∀ i t, Event.sendQuestion i t ∉ rest :=
      fun i t hmem => hno i t (List.mem_cons_of_mem _ hmem)
    simp only [run]
    rw [endedCount_append]
    rcases step_endedCount questions e s he with h | h
    · rw [h.1, ih _ (h.2 hq) hrest]
    · have hfirst : endedCount (step questions e s).2 = 0 := by
        cases e with
        | connection c => rfl
        | sendQuestion i t => exact absurd rfl (he i t)
        | join c name => exact endedCount_join s c name
        | submitAnswer c o t => exact endedCount_submitAnswer s c o t
        | endQuestion =>
          simp only [step, endQuestion]
          rw [endCurrentQuestion_idle s hq]
          rfl
        | timeout handle =>
          simp only [step, timeoutFires]
          split
          · rw [endCurrentQuestion_idle _ (by exact hq)]
            rfl
          · rfl
        | disconnect c => rfl
      rw [hfirst, ih _ h.2 hrest]

theorem run_endedCount_le_one (questions : List Question) (es : List Event) :
    ∀ s : State, (∀ i t, Event.sendQuestion i t ∉ es) →
      endedCount (run questions es s).2 ≤ 1 := by
  induction es with
  | nil => intro s _; exact Nat.zero_le _
  | cons e rest ih =>
    intro s hno
    have he : ∀ i t, e ≠ Event.sendQuestion i t :=
      fun i t heq => hno i t (heq ▸ List.mem_cons_self _ _)
    have hrest : ∀ i t, Event.sendQuestion i t ∉ rest :=
      fun i t hmem => hno i t (List.mem_cons_of_mem _ hmem)
    simp only [run]
    rw [endedCount_append]
    rcases step_endedCount questions e s he with h | h
    · rw [h.1]
      have := ih (step questions e s).1 hrest
      omega
    · rw [h.1, run_endedCount_idle questions rest _ h.2 hrest]

/-- C9. With no active question `endQuestion` broadcasts nothing and leaves the
state as it is, and a timeout firing broadcasts nothing either. In every state
a second `endQuestion` right after the first does nothing, so two in a row
amount to one. In a queue of events without `sendQuestion`, whatever the
number of `endQuestion` requests and timeouts in it, at most one
`questionEnded` is broadcast, and none when no question is active at its
start. -/
theorem endQuestion_idle_noop (questions : List Question) (s : State) :
    (s.currentQuestion = none → endQuestion s = (s, []))
    ∧ (s.currentQuestion = none → ∀ handle, (timeoutFires handle s).2 = [])
    ∧ endQuestion (endQuestion s).1 = ((endQuestion s).1, [])
    ∧ run questions [Event.endQuestion, Event.endQuestion] s = endQuestion s
    ∧ (∀ es : List Event, (∀ i t, Event.sendQuestion i t ∉ es) →
        endedCount (run questions es s).2 ≤ 1)
    ∧ (∀ es : List Event, (∀ i t, Event.sendQuestion i t ∉ es) →
        s.currentQuestion = none → endedCount (run questions es s).2 = 0) := by
  have h2 : endQuestion (endQuestion s).1 = ((endQuestion s).1, []) :=
    endCurrentQuestion_idle _ (endCurrentQuestion_currentQuestion s)
  refine ⟨fun hq => endCurrentQuestion_idle s hq, ?_, h2, ?_, ?_, ?_⟩
  · intro hq handle
    unfold timeoutFires
    split
    · rw [endCurrentQuestion_idle _ (by exact hq)]
    · rfl
  · have hstep : ∀ t : State, step questions Event.endQuestion t = endQuestion t := fun _ => rfl
    simp only [run, hstep, h2, List.append_nil]
  · intro es hno
    exact run_endedCount_le_one questions es s hno
  · intro es hno hq
    exact run_endedCount_idle questions es s hq hno

theorem endQuestion_idle_noop_witness :
    sampleJoined.currentQuestion = none
    ∧ endQuestion sampleJoined = (sampleJoined, [])
    ∧ run sampleBank [Event.endQuestion, Event.endQuestion] sampleAnswered
        = endQuestion sampleAnswered
    ∧ endedCount (run sampleBank [Event.endQuestion, Event.timeout 0, Event.endQuestion]
        sampleAnswered).2 ≤ 1 :=
  ⟨by decide,
   (endQuestion_idle_noop sampleBank sampleJoined).1 (by decide),
   (endQuestion_idle_noop sampleBank sampleAnswered).2.2.2.1,
   (endQuestion_idle_noop sampleBank sampleAnswered).2.2.2.2.1
     [Event.endQuestion, Event.timeout 0, Event.endQuestion] (by simp)⟩

end Quiz

namespace Quiz

/-! ## The deadline timeouts of the reachable states -/

theorem acceptAnswer_timer_fields (s : State) (sock : Nat) (playerName : String)
    (q : Question) (option : String) (now : Int) :
    (acceptAnswer sock playerName q option now s).1.pending = s.pending
    ∧ (acceptAnswer sock playerName q option now s).1.nextHandle = s.nextHandle
    ∧ (acceptAnswer sock playerName q option now s).1.questionTimer = s.questionTimer
    ∧ (acceptAnswer sock playerName q option now s).1.currentQuestion = s.currentQuestion := by
  by_cases h : option = q.correct <;> simp [acceptAnswer, h]

theorem submitAnswer_timer_fields (s : State) (sock : Nat) (option : String) (now : Int) :
    (submitAnswer sock option now s).1.pending = s.pending
    ∧ (submitAnswer sock option now s).1.nextHandle = s.nextHandle
    ∧ (submitAnswer sock option now s).1.questionTimer = s.questionTimer
    ∧ (submitAnswer sock option now s).1.currentQuestion = s.currentQuestion := by
  unfold submitAnswer
  split
  · exact ⟨rfl, rfl, rfl, rfl⟩
  · split
    · exact ⟨rfl, rfl, rfl, rfl⟩
    · split
      · exact ⟨rfl, rfl, rfl, rfl⟩
      · split
        · exact ⟨rfl, rfl, rfl, rfl⟩
        · exact acceptAnswer_timer_fields _ _ _ _ _ _

theorem timerInv_congr (s s2 : State) (hp : s2.pending = s.pending)
    (ht : s2.questionTimer = s.questionTimer) (hq : s2.currentQuestion = s.currentQuestion)
    (h : timerInv s) : timerInv s2 := by
  unfold timerInv at *
  rw [hp, ht, hq]
  exact h

theorem freshHandles_congr (s s2 : State) (hp : s2.pending = s.pending)
    (hn : s2.nextHandle = s.nextHandle) (h : freshHandles s) : freshHandles s2 := by
  unfold freshHandles at *
  rw [hp, hn]
  exact h

theorem startQuestion_inv (q : Question) (now : Int) (s : State) (h : timerInv s) :
    timerInv (startQuestion q now s) ∧ freshHandles (startQuestion q now s) := by
  have hp := startQuestion_pending_of_timerInv q now s h.1
  constructor
  · refine ⟨?_, ?_⟩
    · rw [hp, startQuestion_eq]
      rfl
    · rw [startQuestion_eq]
      rfl
  · intro t ht
    rw [hp] at ht
    simp only [List.mem_singleton] at ht
    subst ht
    rw [startQuestion_eq]
    exact Nat.lt_succ_self _

theorem endCurrentQuestion_inv (s : State) (h : timerInv s ∧ freshHandles s) :
    timerInv (endCurrentQuestion s).1 ∧ freshHandles (endCurrentQuestion s).1 := by
  cases hq : s.currentQuestion with
  | none =>
    rw [endCurrentQuestion_idle s hq]
    exact h
  | some q =>
    have hpend : (endCurrentQuestion s).1.pending = [] := by
      rw [endCurrentQuestion_eq s q hq]
      cases ht : s.questionTimer with
      | none => simpa using pending_nil_of_timerInv s h.1.1 ht
      | some old => simpa using filter_handle_of_timerInv s old h.1.1 ht
    constructor
    · refine ⟨?_, ?_⟩
      · rw [hpend, endCurrentQuestion_eq s q hq]
        rfl
      · rw [endCurrentQuestion_eq s q hq]
        rfl
    · intro t ht
      rw [hpend] at ht
      simp at ht

theorem step_inv (questions : List Question) (e : Event) (s : State)
    (h : timerInv s ∧ freshHandles s) :
    timerInv (step questions e s).1 ∧ freshHandles (step questions e s).1 := by
  cases e with
  | connection c => exact h
  | sendQuestion i t =>
    simp only [step, sendQuestion]
    split
    · exact h
    · exact startQuestion_inv _ _ _ h.1
  | join c name =>
    have hj := join_effect c name s
    exact ⟨timerInv_congr s _ hj.2.2.2.2.2.1 hj.2.2.2.1 hj.1 h.1,
      freshHandles_congr s _ hj.2.2.2.2.2.1 hj.2.2.2.2.2.2.1 h.2⟩
  | submitAnswer c o t =>
    have hs := submitAnswer_timer_fields s c o t
    exact ⟨timerInv_congr s _ hs.1 hs.2.2.1 hs.2.2.2 h.1,
      freshHandles_congr s _ hs.1 hs.2.1 h.2⟩
  | endQuestion => exact endCurrentQuestion_inv s h
  | timeout handle =>
    simp only [step]
    by_cases hp : handle ∈ s.pending.map Prod.fst
    · have hq : s.currentQuestion ≠ none := by
        have hmem := hp
        rw [h.1.1] at hmem
        intro hnone
        have hsome := h.1.2
        rw [hnone] at hsome
        cases ht : s.questionTimer with
        | none => rw [ht] at hmem; simp at hmem
        | some old => rw [ht] at hsome; simp at hsome
      rw [timeoutFires_eq_endQuestion s handle h.1 hq hp]
      exact endCurrentQuestion_inv s h
    · rw [timeoutFires_not_pending s handle hp]
      exact h
  | disconnect c => exact h

theorem run_inv (questions : List Question) (es : List Event) :
    ∀ s : State, timerInv s ∧ freshHandles s →
      timerInv (run questions es s).1 ∧ freshHandles (run questions es s).1 := by
  induction es with
  | nil => intro s h; exact h
  | cons e rest ih =>
    intro s h
    simp only [run]
    exact ih _ (step_inv questions e s h)

theorem handleRetired_of_subset (old : Nat) (s s2 : State) (h : handleRetired old s)
    (hp : ∀ t ∈ s2.pending, t ∈ s.pending) (hn : s.nextHandle ≤ s2.nextHandle) :
    handleRetired old s2 :=
  ⟨Nat.lt_of_lt_of_le h.1 hn, fun t ht => h.2 t (hp t ht)⟩

theorem endCurrentQuestion_retired (old : Nat) (s : State) (h : handleRetired old s) :
    handleRetired old (endCurrentQuestion s).1 := by
  cases hq : s.currentQuestion with
  | none =>
    rw [endCurrentQuestion_idle s hq]
    exact h
  | some q =>
    apply handleRetired_of_subset old s _ h
    · intro t ht
      rw [endCurrentQuestion_eq s q hq] at ht
      cases hqt : s.questionTimer with
      | none => simpa [hqt] using ht
      | some o =>
        simp only [hqt] at ht
        exact List.mem_of_mem_filter ht
    · rw [endCurrentQuestion_eq s q hq]

theorem startQuestion_retired (old : Nat) (q : Question) (now : Int) (s : State)
    (h : handleRetired old s) : handleRetired old (startQuestion q now s) := by
  rw [startQuestion_eq]
  refine ⟨Nat.lt_succ_of_lt h.1, ?_⟩
  intro t ht
  simp only [List.mem_append, List.mem_singleton] at ht
  rcases ht with ht | ht
  · cases hqt : s.questionTimer with
    | none => exact h.2 t (by simpa [hqt] using ht)
    | some o =>
      simp only [hqt] at ht
      exact h.2 t (List.mem_of_mem_filter ht)
  · subst ht
    exact h.1

theorem step_retired (questions : List Question) (e : Event) (old : Nat) (s : State)
    (h : handleRetired old s) : handleRetired old (step questions e s).1 := by
  cases e with
  | connection c => exact h
  | sendQuestion i t =>
    simp only [step, sendQuestion]
    split
    · exact h
    · exact startQuestion_retired old _ _ s h
  | join c name =>
    have hj := join_effect c name s
    exact handleRetired_of_subset old s (join c name s).1 h
      (fun t ht => by rw [hj.2.2.2.2.2.1] at ht; exact ht) (by rw [hj.2.2.2.2.2.2.1])
  | submitAnswer c o t =>
    have hs := submitAnswer_timer_fields s c o t
    exact handleRetired_of_subset old s (submitAnswer c o t s).1 h
      (fun t ht => by rw [hs.1] at ht; exact ht) (by rw [hs.2.1])
  | endQuestion => exact endCurrentQuestion_retired old s h
  | timeout handle =>
    simp only [step, timeoutFires]
    split
    · apply endCurrentQuestion_retired
      exact handleRetired_of_subset old s _ h (fun t ht => List.mem_of_mem_filter ht)
        (Nat.le_refl _)
    · exact h
  | disconnect c => exact h

theorem run_retired (questions : List Question) (es : List Event) (old : Nat) :
    ∀ s : State, handleRetired old s → handleRetired old (run questions es s).1 := by
  induction es with
  | nil => intro s h; exact h
  | cons e rest ih =>
    intro s h
    simp only [run]
    exact ih _ (step_retired questions e old s h)

theorem not_pending_of_retired (old : Nat) (s : State) (h : handleRetired old s) :
    old ∉ s.pending.map Prod.fst := by
  intro hmem
  obtain ⟨t, ht, rfl⟩ := List.mem_map.mp hmem
  exact Nat.lt_irrefl _ (h.2 t ht)

end Quiz

namespace Quiz

theorem initial_inv : timerInv State.initial ∧ freshHandles State.initial := by
  decide

theorem reachable_inv (questions : List Question) (s : State) (hr : Reachable questions s) :
    timerInv s ∧ freshHandles s := by
  obtain ⟨es, hes⟩ := hr
  rw [← hes]
  exact run_inv questions es State.initial initial_inv

theorem endCurrentQuestion_pending_nil (s : State) (q : Question)
    (hq : s.currentQuestion = some q) (hinv : timerInv s) :
    (endCurrentQuestion s).1.pending = [] := by
  rw [endCurrentQuestion_eq s q hq]
  cases ht : s.questionTimer with
  | none => simpa using pending_nil_of_timerInv s hinv.1 ht
  | some old => simpa using filter_handle_of_timerInv s old hinv.1 ht

theorem active_of_pending (s : State) (hinv : timerInv s) (old : Nat)
    (hold : old ∈ s.pending.map Prod.fst) :
    s.questionTimer = some old ∧ ∃ q, s.currentQuestion = some q := by
  rw [hinv.1] at hold
  cases ht : s.questionTimer with
  | none => rw [ht] at hold; simp at hold
  | some o =>
    rw [ht] at hold
    simp only [Option.toList, List.mem_singleton] at hold
    subst hold
    refine ⟨rfl, ?_⟩
    have h2 := hinv.2
    rw [ht] at h2
    cases hq : s.currentQuestion with
    | none => rw [hq] at h2; simp at h2
    | some q => exact ⟨q, rfl⟩

theorem retired_after_end (s : State) (hinv : timerInv s) (hfresh : freshHandles s) (old : Nat)
    (hold : old ∈ s.pending.map Prod.fst) : handleRetired old (endQuestion s).1 := by
  obtain ⟨_, q, hq⟩ := active_of_pending s hinv old hold
  obtain ⟨t, ht, rfl⟩ := List.mem_map.mp hold
  refine ⟨?_, ?_⟩
  · rw [endQuestion, endCurrentQuestion_eq s q hq]
    exact hfresh t ht
  · intro t2 ht2
    rw [endQuestion, endCurrentQuestion_pending_nil s q hq hinv] at ht2
    simp at ht2

theorem retired_after_start (s : State) (hinv : timerInv s) (hfresh : freshHandles s)
    (old : Nat) (hold : old ∈ s.pending.map Prod.fst) (q : Question) (now : Int) :
    handleRetired old (startQuestion q now s) := by
  obtain ⟨t, ht, rfl⟩ := List.mem_map.mp hold
  have hlt := hfresh t ht
  refine ⟨?_, ?_⟩
  · rw [startQuestion_eq]
    exact Nat.lt_succ_of_lt hlt
  · intro t2 ht2
    rw [startQuestion_pending_of_timerInv q now s hinv.1] at ht2
    simp only [List.mem_singleton] at ht2
    subst ht2
    exact hlt

/-- C10. In every state reachable from the initial one by the events of the
server (connections, `sendQuestion`, `join`, `submitAnswer`, `endQuestion`,
timeouts firing, disconnections): at most one timeout is pending; the pending
timeouts are exactly the one held in `questionTimer`; one is pending if and
only if a question is active. A timeout pending in such a state is no longer
pending after `endQuestion`, nor after `startQuestion`, nor after any events
that follow, so that its firing does nothing and ends no later question; after
`startQuestion` the only pending timeout is the one it has just armed. -/
theorem reachable_one_live_timeout (questions : List Question) (s : State)
    (hr : Reachable questions s) :
    s.pending.length ≤ 1
    ∧ s.pending.map Prod.fst = s.questionTimer.toList
    ∧ (s.pending ≠ [] ↔ s.currentQuestion ≠ none)
    ∧ (s.questionTimer ≠ none ↔ s.currentQuestion ≠ none)
    ∧ (∀ old ∈ s.pending.map Prod.fst, ∀ es : List Event,
        old ∉ (run questions es (endQuestion s).1).1.pending.map Prod.fst
        ∧ timeoutFires old (run questions es (endQuestion s).1).1
            = ((run questions es (endQuestion s).1).1, []))
    ∧ (∀ old ∈ s.pending.map Prod.fst, ∀ (q : Question) (now : Int) (es : List Event),
        old ∉ (run questions es (startQuestion q now s)).1.pending.map Prod.fst
        ∧ timeoutFires old (run questions es (startQuestion q now s)).1
            = ((run questions es (startQuestion q now s)).1, []))
    ∧ (∀ (q : Question) (now : Int),
        (startQuestion q now s).pending = [(s.nextHandle, QUESTION_TIME_SEC * 1000)]
        ∧ (startQuestion q now s).questionTimer = some s.nextHandle) := by
  obtain ⟨hinv, hfresh⟩ := reachable_inv questions s hr
  have hlen : s.pending.length ≤ 1 := by
    have h := congrArg List.length hinv.1
    rw [List.length_map] at h
    rw [h]
    cases s.questionTimer <;> simp
  have hq : s.questionTimer ≠ none ↔ s.currentQuestion ≠ none := by
    have h := hinv.2
    cases ht : s.questionTimer <;> cases hc : s.currentQuestion <;> simp [ht, hc] at h ⊢
  have hp : s.pending ≠ [] ↔ s.questionTimer ≠ none := by
    have h := hinv.1
    cases ht : s.questionTimer with
    | none =>
      rw [ht] at h
      simp at h
      simp [h]
    | some o =>
      rw [ht] at h
      constructor
      · intro _; simp
      · intro _ hnil
        rw [hnil] at h
        simp at h
  refine ⟨hlen, hinv.1, hp.trans hq, hq, ?_, ?_, ?_⟩
  · intro old hold es
    have hret := run_retired questions es old _ (retired_after_end s hinv hfresh old hold)
    have hnot := not_pending_of_retired old _ hret
    exact ⟨hnot, timeoutFires_not_pending _ old hnot⟩
  · intro old hold q now es
    have hret := run_retired questions es old _
      (retired_after_start s hinv hfresh old hold q now)
    have hnot := not_pending_of_retired old _ hret
    exact ⟨hnot, timeoutFires_not_pending _ old hnot⟩
  · intro q now
    refine ⟨startQuestion_pending_of_timerInv q now s hinv.1, ?_⟩
    rw [startQuestion_eq]

theorem reachable_one_live_timeout_witness :
    Reachable sampleBank sampleActive
    ∧ sampleActive.pending.length ≤ 1
    ∧ sampleActive.pending.map Prod.fst = sampleActive.questionTimer.toList
    ∧ (sampleActive.pending ≠ [] ↔ sampleActive.currentQuestion ≠ none)
    ∧ timeoutFires 0 (run sampleBank [Event.submitAnswer 1 "4" 6000, Event.timeout 0]
          (startQuestion sampleQuestion 5000 sampleActive)).1
        = ((run sampleBank [Event.submitAnswer 1 "4" 6000, Event.timeout 0]
          (startQuestion sampleQuestion 5000 sampleActive)).1, []) :=
  ⟨⟨_, sampleActive_reachable⟩,
   (reachable_one_live_timeout sampleBank sampleActive ⟨_, sampleActive_reachable⟩).1,
   (reachable_one_live_timeout sampleBank sampleActive ⟨_, sampleActive_reachable⟩).2.1,
   (reachable_one_live_timeout sampleBank sampleActive ⟨_, sampleActive_reachable⟩).2.2.1,
   ((reachable_one_live_timeout sampleBank sampleActive
      ⟨_, sampleActive_reachable⟩).2.2.2.2.2.1 0 (by decide) sampleQuestion 5000
      [Event.submitAnswer 1 "4" 6000, Event.timeout 0]).2⟩

end Quiz

namespace Quiz

/-! ## One record per player -/

theorem submitAnswer_cases (s : State) (sock : Nat) (option : String) (now : Int) :
    (∃ e, submitAnswer sock option now s = (s, [Emit.toSocket sock (Msg.errorMessage e)]))
    ∨ (∃ name q, playerNameOf s sock = some name ∧ name ≠ "" ∧ s.currentQuestion = some q
        ∧ (∀ a ∈ s.answeredOrder, a.player ≠ name)
        ∧ submitAnswer sock option now s = acceptAnswer sock name q option now s) := by
  cases hn : playerNameOf s sock with
  | none => exact Or.inl ⟨NotJoined, by simp [submitAnswer, hn]⟩
  | some name =>
    by_cases hname : name = ""
    · exact Or.inl ⟨NotJoined, by simp [submitAnswer, hn, hname]⟩
    · cases hq : s.currentQuestion with
      | none => exact Or.inl ⟨NoActiveQuestion, by simp [submitAnswer, hn, hname, hq]⟩
      | some q =>
        cases hf : s.answeredOrder.find? (fun a => a.player == name) with
        | some a => exact Or.inl ⟨DuplicateAnswer, by simp [submitAnswer, hn, hname, hq, hf]⟩
        | none =>
          right
          have hnew : ∀ a ∈ s.answeredOrder, a.player ≠ name := by
            intro a ha
            have := List.find?_eq_none.mp hf a ha
            simpa using this
          exact ⟨name, q, rfl, hname, rfl, hnew,
            submitAnswer_accept s sock name q option now hn hname hq hnew⟩

theorem submitAnswer_onePerPlayer (s : State) (sock : Nat) (option : String) (now : Int)
    (h : onePerPlayer s.answeredOrder) :
    onePerPlayer (submitAnswer sock option now s).1.answeredOrder := by
  rcases submitAnswer_cases s sock option now with ⟨e, he⟩ | ⟨name, q, _, _, _, hnew, hacc⟩
  · rw [he]
    exact h
  · rw [hacc, acceptAnswer_answeredOrder]
    unfold onePerPlayer at *
    rw [List.map_append, List.nodup_append]
    refine ⟨h, by simp, ?_⟩
    intro p hp1 hp2
    simp only [List.map_cons, List.map_nil, List.mem_singleton] at hp2
    obtain ⟨a, ha, hap⟩ := List.mem_map.mp hp1
    exact hnew a ha (hap.trans hp2)

theorem endCurrentQuestion_onePerPlayer (s : State) (h : onePerPlayer s.answeredOrder) :
    onePerPlayer (endCurrentQuestion s).1.answeredOrder := by
  cases hq : s.currentQuestion with
  | none => rw [endCurrentQuestion_idle s hq]; exact h
  | some q => rw [endCurrentQuestion_eq s q hq]; exact List.nodup_nil

theorem step_onePerPlayer (questions : List Question) (e : Event) (s : State)
    (h : onePerPlayer s.answeredOrder) :
    onePerPlayer (step questions e s).1.answeredOrder := by
  cases e with
  | connection c => exact h
  | sendQuestion i t =>
    simp only [step, sendQuestion]
    split
    · exact h
    · rw [startQuestion_eq]
      exact List.nodup_nil
  | join c name =>
    simp only [step]
    rw [(join_effect c name s).2.1]
    exact h
  | submitAnswer c o t => exact submitAnswer_onePerPlayer s c o t h
  | endQuestion => exact endCurrentQuestion_onePerPlayer s h
  | timeout handle =>
    simp only [step, timeoutFires]
    split
    · exact endCurrentQuestion_onePerPlayer _ h
    · exact h
  | disconnect c => exact h

theorem run_onePerPlayer (questions : List Question) (es : List Event) :
    ∀ s : State, onePerPlayer s.answeredOrder →
      onePerPlayer (run questions es s).1.answeredOrder := by
  induction es with
  | nil => intro s h; exact h
  | cons e rest ih =>
    intro s h
    simp only [run]
    exact ih _ (step_onePerPlayer questions e s h)

/-- C11. In every state reachable from the initial one by any queue of events
(joins, also of several connections under one name, submissions, starts, ends,
timeouts), no two records of `answeredOrder` have the same player; and every
event keeps it so. -/
theorem reachable_one_record_per_player (questions : List Question) (s : State)
    (hr : Reachable questions s) :
    onePerPlayer s.answeredOrder
    ∧ (∀ (i j : Nat) (a b : Answer), s.answeredOrder[i]? = some a →
        s.answeredOrder[j]? = some b → a.player = b.player → i = j)
    ∧ (∀ e : Event, onePerPlayer (step questions e s).1.answeredOrder) := by
  obtain ⟨es, hes⟩ := hr
  have h : onePerPlayer s.answeredOrder := by
    rw [← hes]
    exact run_onePerPlayer questions es State.initial List.nodup_nil
  refine ⟨h, ?_, fun e => step_onePerPlayer questions e s h⟩
  intro i j a b hi hj hab
  have hi2 : (s.answeredOrder.map (fun a => a.player))[i]? = some a.player := by
    rw [List.getElem?_map, hi]
    rfl
  have hj2 : (s.answeredOrder.map (fun a => a.player))[j]? = some a.player := by
    rw [List.getElem?_map, hj, hab]
    rfl
  have hlt : i < (s.answeredOrder.map (fun a => a.player)).length := by
    rcases List.getElem?_eq_some_iff.mp hi2 with ⟨hlt, _⟩
    exact hlt
  exact (List.getElem?_inj hlt h (hi2.trans hj2.symm))

theorem reachable_one_record_per_player_witness :
    Reachable sampleBank (run sampleBank sameNameEvents State.initial).1
    ∧ onePerPlayer (run sampleBank sameNameEvents State.initial).1.answeredOrder
    ∧ (run sampleBank sameNameEvents State.initial).1.answeredOrder
        = [{ player := "A", option := "3", timeTaken := 1000, correct := false }] :=
  ⟨⟨sameNameEvents, rfl⟩,
   (reachable_one_record_per_player sampleBank
      (run sampleBank sameNameEvents State.initial).1 ⟨sameNameEvents, rfl⟩).1,
   by decide⟩

end Quiz

namespace Quiz

/-! ## Scores never decrease -/

theorem scoreLe_refl (v : Score) : scoreLe v v := by
  cases v with
  | num n => exact le_refl n
  | text c r => exact ⟨rfl, "", by simp⟩

theorem scoreLe_trans (u v w : Score) (huv : scoreLe u v) (hvw : scoreLe v w) :
    scoreLe u w := by
  cases u with
  | num a =>
    cases v with
    | num b =>
      cases w with
      | num c => exact le_trans huv hvw
      | text c r => exact hvw.elim
    | text c r => exact huv.elim
  | text c r =>
    cases v with
    | num b => exact huv.elim
    | text c2 r2 =>
      cases w with
      | num b => exact hvw.elim
      | text c3 r3 =>
        obtain ⟨hc, m1, h1⟩ := huv
        obtain ⟨hc2, m2, h2⟩ := hvw
        exact ⟨hc.trans hc2, m1 ++ m2, by rw [h2, h1, String.append_assoc]⟩

theorem scoreLe_orZeroPlus_own (v : Score) (points : Int) (hp : 0 ≤ points) :
    scoreLe v (orZeroPlus (Read.own v) points) := by
  cases v with
  | num n =>
    simp only [orZeroPlus, scoreLe]
    split <;> omega
  | text c r => exact ⟨rfl, toString points, rfl⟩

theorem scoresGrow_refl (a : List (String × Score)) : scoresGrow a a :=
  fun _ v h => ⟨v, h, scoreLe_refl v⟩

theorem scoresGrow_trans (a b c : List (String × Score)) (hab : scoresGrow a b)
    (hbc : scoresGrow b c) : scoresGrow a c := by
  intro p v h
  obtain ⟨w, hw, hvw⟩ := hab p v h
  obtain ⟨x, hx, hwx⟩ := hbc p w hw
  exact ⟨x, hx, scoreLe_trans v w x hvw hwx⟩

theorem scoresGrow_of_sameScores (a b : List (String × Score)) (h : sameScores a b) :
    scoresGrow a b :=
  fun p v hv => ⟨v, (h p).2 v hv, scoreLe_refl v⟩

theorem scoresGrow_setProp (a : List (String × Score)) (name : String) (value : Score)
    (h : ∀ old, ownProp a name = some old → scoreLe old value) :
    scoresGrow a (setProp a name value) := by
  intro p v hv
  by_cases hp : p = name
  · subst hp
    exact ⟨value, ownProp_setProp_of_own a p value v hv, h v hv⟩
  · exact ⟨v, by rw [ownProp_setProp_other a name p value hp]; exact hv, scoreLe_refl v⟩

theorem acceptAnswer_scoresGrow (s : State) (sock : Nat) (playerName : String) (q : Question)
    (option : String) (now : Int) :
    scoresGrow s.scores (acceptAnswer sock playerName q option now s).1.scores := by
  rw [acceptAnswer_scores_eq]
  split
  · apply scoresGrow_setProp
    intro old hold
    rw [getProp_of_own s.scores playerName old hold]
    exact scoreLe_orZeroPlus_own old _ (le_max_right _ _)
  · exact scoresGrow_refl _

theorem endCurrentQuestion_scores (s : State) : (endCurrentQuestion s).1.scores = s.scores := by
  cases hq : s.currentQuestion with
  | none => rw [endCurrentQuestion_idle s hq]
  | some q => rw [endCurrentQuestion_eq s q hq]

theorem step_scoresGrow (questions : List Question) (e : Event) (s : State) :
    scoresGrow s.scores (step questions e s).1.scores := by
  cases e with
  | connection c => exact scoresGrow_refl _
  | sendQuestion i t =>
    simp only [step, sendQuestion]
    split
    · exact scoresGrow_refl _
    · rw [startQuestion_eq]
      exact scoresGrow_refl _
  | join c name =>
    exact scoresGrow_of_sameScores _ _ (join_effect c name s).2.2.2.2.2.2.2
  | submitAnswer c o t =>
    simp only [step]
    rcases submitAnswer_cases s c o t with ⟨e, he⟩ | ⟨name, q, _, _, _, _, hacc⟩
    · rw [he]
      exact scoresGrow_refl _
    · rw [hacc]
      exact acceptAnswer_scoresGrow s c name q o t
  | endQuestion =>
    simp only [step, endQuestion, endCurrentQuestion_scores]
    exact scoresGrow_refl _
  | timeout handle =>
    simp only [step, timeoutFires]
    split
    · rw [endCurrentQuestion_scores]
      exact scoresGrow_refl _
    · exact scoresGrow_refl _
  | disconnect c => exact scoresGrow_refl _

theorem run_scoresGrow (questions : List Question) (es : List Event) :
    ∀ s : State, scoresGrow s.scores (run questions es s).1.scores := by
  induction es with
  | nil => intro s; exact scoresGrow_refl _
  | cons e rest ih =>
    intro s
    simp only [run]
    exact scoresGrow_trans _ _ _ (step_scoresGrow questions e s) (ih _)

/-- C12. In every state, reachable ones included, and for every event
(connection, `sendQuestion`, `join`, `submitAnswer` whether correct, wrong or
rejected, `endQuestion`, timeout, disconnection): a player with an own entry
`v` in `scores` before the event has an own entry `w` after it, and `w` is not
below `v`: a number `n` becomes a number `m ≥ n`, and a string, the entry that
line 95 creates for a player named after a function of `Object.prototype`, is
kept or extended at its end. The same holds across every queue of events. -/
theorem scores_never_decrease (questions : List Question) (s : State) (e : Event)
    (p : String) (v : Score) (hv : ownProp s.scores p = some v) :
    (∃ w, ownProp (step questions e s).1.scores p = some w ∧ scoreLe v w)
    ∧ (∀ es : List Event, ∃ w, ownProp (run questions es s).1.scores p = some w
        ∧ scoreLe v w)
    ∧ (∀ n : Int, v = Score.num n → ∀ es : List Event,
        ∃ m : Int, ownProp (run questions es s).1.scores p = some (Score.num m) ∧ n ≤ m)
    ∧ (∀ (c : Char) (r : String), v = Score.text c r → ∀ es : List Event,
        ∃ more : String,
          ownProp (run questions es s).1.scores p = some (Score.text c (r ++ more))) := by
  refine ⟨step_scoresGrow questions e s p v hv, fun es => run_scoresGrow questions es s p v hv,
    ?_, ?_⟩
  · intro n hn es
    subst hn
    obtain ⟨w, hw, hle⟩ := run_scoresGrow questions es s p _ hv
    cases w with
    | num m => exact ⟨m, hw, hle⟩
    | text c r => exact hle.elim
  · intro c r hc es
    subst hc
    obtain ⟨w, hw, hle⟩ := run_scoresGrow questions es s p _ hv
    cases w with
    | num m => exact hle.elim
    | text c2 r2 =>
      obtain ⟨hcc, more, hmore⟩ := hle
      subst hcc
      subst hmore
      exact ⟨more, hw⟩

theorem scores_never_decrease_witness :
    (ownProp sampleAnswered.scores "A" = some (Score.num 10)
      ∧ ownProp sampleConstructor.scores "constructor"
          = some (Score.text 'f' "unction Object() \x7b [native code] \x7d10"))
    ∧ (∃ w, ownProp (step sampleBank (Event.submitAnswer 2 "3" 3000) sampleAnswered).1.scores
        "A" = some w ∧ scoreLe (Score.num 10) w)
    ∧ (∀ es : List Event, ∃ m : Int,
        ownProp (run sampleBank es sampleAnswered).1.scores "A" = some (Score.num m)
        ∧ 10 ≤ m)
    ∧ (∀ es : List Event, ∃ more : String,
        ownProp (run sampleBank es sampleConstructor).1.scores "constructor"
          = some (Score.text 'f' ("unction Object() \x7b [native code] \x7d10" ++ more))) :=
  ⟨⟨by decide, by decide⟩,
   (scores_never_decrease sampleBank sampleAnswered (Event.submitAnswer 2 "3" 3000) "A"
     (Score.num 10) (by decide)).1,
   (scores_never_decrease sampleBank sampleAnswered (Event.submitAnswer 2 "3" 3000) "A"
     (Score.num 10) (by decide)).2.2.1 10 rfl,
   (scores_never_decrease sampleBank sampleConstructor Event.endQuestion "constructor"
     (Score.text 'f' "unction Object() \x7b [native code] \x7d10") (by decide)).2.2.2
     'f' "unction Object() \x7b [native code] \x7d10" rfl⟩

end Quiz

namespace Quiz

/-! ## The scenario of the specification -/

/-- C13. With the bank `[{id: 1, text: "2+2?", options: ["3", "4"], correct:
"4"}]` and A, B, C joined from the initial state: `sendQuestion(0)` broadcasts
`newQuestion {id: 1, text: "2+2?", options: ["3", "4"]}`; A submitting "4"
gets `yourPoints 10` and is announced correct, B submitting "3" gets
`yourPoints 0` and is announced incorrect, C submitting "4" gets
`yourPoints 9`; `endQuestion` broadcasts `questionEnded` with the three
records in the order A, B, C and the scores A 10, B 0, C 9. These are all the
emissions of the run, in order, and the state after it is idle. -/
theorem scenario_emissions :
    (run sampleBank scenarioEvents State.initial).2
      = [Emit.toAll (Msg.scoreUpdate [("A", 0)] []),
         Emit.toAll (Msg.scoreUpdate [("A", 0), ("B", 0)] []),
         Emit.toAll (Msg.scoreUpdate [("A", 0), ("B", 0), ("C", 0)] []),
         Emit.toAll (Msg.newQuestion 1 "2+2?" ["3", "4"]),
         Emit.toAll (Msg.scoreUpdate [("A", 0), ("B", 0), ("C", 0)] []),
         Emit.toSocket 1 (Msg.yourPoints 10),
         Emit.toAll (Msg.scoreUpdate [("A", 10), ("B", 0), ("C", 0)] [("A", 1000)]),
         Emit.toAll (Msg.answerUpdate "A" "4" true),
         Emit.toSocket 2 (Msg.yourPoints 0),
         Emit.toAll (Msg.scoreUpdate [("A", 10), ("B", 0), ("C", 0)]
           [("A", 1000), ("B", 2000)]),
         Emit.toAll (Msg.answerUpdate "B" "3" false),
         Emit.toSocket 3 (Msg.yourPoints 9),
         Emit.toAll (Msg.scoreUpdate [("A", 10), ("B", 0), ("C", 9)]
           [("A", 1000), ("B", 2000), ("C", 3000)]),
         Emit.toAll (Msg.answerUpdate "C" "4" true),
         Emit.toAll (Msg.questionEnded (some 1) "2+2?"
           [{ player := "A", option := "4", timeTaken := 1000, correct := true },
            { player := "B", option := "3", timeTaken := 2000, correct := false },
            { player := "C", option := "4", timeTaken := 3000, correct := true }]
           [("A", 10), ("B", 0), ("C", 9)])]
    ∧ yourPointsOf (run sampleBank scenarioEvents State.initial).2 = [10, 0, 9]
    ∧ (run sampleBank scenarioEvents State.initial).1.scores = [("A", 10), ("B", 0), ("C", 9)]
    ∧ (run sampleBank scenarioEvents State.initial).1.currentQuestion = none := by
  decide

end Quiz

namespace Quiz

/-! ## The broadcast of a new question -/

theorem sendQuestion_out_valid (questions : List Question) (i : Nat) (q : Question)
    (now : Int) (s : State) (hq : questions[i]? = some q) :
    (sendQuestion questions (IndexArg.integer i) now s).2
      = [Emit.toAll (Msg.newQuestion (q.id.getD i) q.text q.options),
         Emit.toAll (Msg.scoreUpdate s.scores s.lastAnswerTime)] := by
  have hs : (startQuestion q now s).scores = s.scores := by rw [startQuestion_eq]
  have hl : (startQuestion q now s).lastAnswerTime = s.lastAnswerTime := by
    rw [startQuestion_eq]
  simp [sendQuestion, questionAt, hq, hs, hl]

theorem sendQuestion_out_invalid (questions : List Question) (idx : IndexArg) (now : Int)
    (s : State) (h : questionAt questions idx = none) :
    sendQuestion questions idx now s = (s, []) := by
  simp [sendQuestion, h]

theorem questionAt_none_of_getElem? (questions : List Question) (n : Nat)
    (h : questions[n]? = none) : questionAt questions (IndexArg.integer n) = none := by
  simp [questionAt, h]

theorem sendQuestion_out_congr (qs1 qs2 : List Question) (idx : IndexArg) (now : Int)
    (s : State) (h : qs1.map publicView = qs2.map publicView) :
    (sendQuestion qs1 idx now s).2 = (sendQuestion qs2 idx now s).2 := by
  cases idx with
  | fractional => rfl
  | notNumber => rfl
  | integer j =>
    by_cases hj : 0 ≤ j
    · obtain ⟨n, rfl⟩ := Int.eq_ofNat_of_zero_le hj
      have hn : (qs1.map publicView)[n]? = (qs2.map publicView)[n]? := by rw [h]
      rw [List.getElem?_map, List.getElem?_map] at hn
      cases h1 : qs1[n]? with
      | none =>
        cases h2 : qs2[n]? with
        | none =>
          rw [sendQuestion_out_invalid qs1 _ now s (questionAt_none_of_getElem? qs1 n h1),
            sendQuestion_out_invalid qs2 _ now s (questionAt_none_of_getElem? qs2 n h2)]
        | some q2 => rw [h1, h2] at hn; simp at hn
      | some q1 =>
        cases h2 : qs2[n]? with
        | none => rw [h1, h2] at hn; simp at hn
        | some q2 =>
          rw [h1, h2] at hn
          simp only [Option.map_some', Option.some.injEq, publicView, Prod.mk.injEq] at hn
          obtain ⟨hid, htext, hopts⟩ := hn
          rw [sendQuestion_out_valid qs1 n q1 now s h1,
            sendQuestion_out_valid qs2 n q2 now s h2, hid, htext, hopts]
    · have h1 : questionAt qs1 (IndexArg.integer j) = none := by simp [questionAt, hj]
      have h2 : questionAt qs2 (IndexArg.integer j) = none := by simp [questionAt, hj]
      rw [sendQuestion_out_invalid qs1 _ now s h1, sendQuestion_out_invalid qs2 _ now s h2]

/-- C14. For a valid index `i` with `questions[i] = q`, the emissions of
`sendQuestion(i)` are the broadcast `newQuestion` made of the id of `q` (or
`i` when `q` has none), its text and its options, followed by the broadcast
`scoreUpdate`. For two banks whose records agree on id, text and options,
differing at most in the `correct` fields, the emissions of `sendQuestion` are
the same, for every index and in every state. -/
theorem sendQuestion_hides_correct (questions : List Question) (i : Nat) (q : Question)
    (now : Int) (s : State) (hq : questions.get? i = some q) :
    (sendQuestion questions (IndexArg.integer i) now s).2
      = [Emit.toAll (Msg.newQuestion (q.id.getD i) q.text q.options),
         Emit.toAll (Msg.scoreUpdate s.scores s.lastAnswerTime)]
    ∧ (∀ (other : List Question) (idx : IndexArg),
        questions.map publicView = other.map publicView →
        (sendQuestion questions idx now s).2 = (sendQuestion other idx now s).2) := by
  have hq2 : questions[i]? = some q := by simpa using hq
  exact ⟨sendQuestion_out_valid questions i q now s hq2,
    fun other idx h => sendQuestion_out_congr questions other idx now s h⟩

theorem sendQuestion_hides_correct_witness :
    (sampleBank.get? 0 = some sampleQuestion
      ∧ sampleBank.map publicView = sampleBankOther.map publicView
      ∧ sampleBank ≠ sampleBankOther)
    ∧ (sendQuestion sampleBank (IndexArg.integer (0 : Nat)) 1000 sampleJoined).2
        = [Emit.toAll (Msg.newQuestion (sampleQuestion.id.getD (0 : Nat)) sampleQuestion.text
            sampleQuestion.options),
           Emit.toAll (Msg.scoreUpdate sampleJoined.scores sampleJoined.lastAnswerTime)]
    ∧ (sendQuestion sampleBank (IndexArg.integer 0) 1000 sampleJoined).2
        = (sendQuestion sampleBankOther (IndexArg.integer 0) 1000 sampleJoined).2 :=
  ⟨⟨by decide, by decide, by decide⟩,
   (sendQuestion_hides_correct sampleBank 0 sampleQuestion 1000 sampleJoined (by decide)).1,
   (sendQuestion_hides_correct sampleBank 0 sampleQuestion 1000 sampleJoined (by decide)).2
     sampleBankOther (IndexArg.integer 0) (by decide)⟩

end Quiz

namespace Quiz

/-! ## An index outside the bank -/

theorem questionAt_outOfRange (questions : List Question) (idx : IndexArg)
    (h : outOfRange questions idx) : questionAt questions idx = none := by
  cases idx with
  | fractional => rfl
  | notNumber => rfl
  | integer j =>
    simp only [outOfRange] at h
    by_cases hj : 0 ≤ j
    · have hlen : questions.length ≤ j.toNat := by omega
      simp [questionAt, hj, List.getElem?_eq_none hlen]
    · simp [questionAt, hj]

/-- C15, as stated, fails: with the empty bank a `sendQuestion(0)` in the
initial state emits nothing at all, so no error is reported to the requesting
client; the state is unchanged. -/
theorem invalid_index_not_reported :
    outOfRange [] (IndexArg.integer 0)
    ∧ sendQuestion [] (IndexArg.integer 0) 0 State.initial = (State.initial, [])
    ∧ (sendQuestion [] (IndexArg.integer 0) 0 State.initial).2 = []
    ∧ errorsOf (sendQuestion [] (IndexArg.integer 0) 0 State.initial).2 = [] := by
  refine ⟨Or.inr (by decide), by decide, by decide, by decide⟩

/-- C15, amended. For every bank, the empty one included, and every index
outside it (negative, not below the length, not an integer, not a number),
`sendQuestion` leaves the state as it is (current question, answer log,
timeout, scores) and emits nothing, neither a broadcast nor a message to the
requesting client. -/
theorem sendQuestion_invalid_index_silent (questions : List Question) (idx : IndexArg)
    (now : Int) (s : State) (h : outOfRange questions idx) :
    sendQuestion questions idx now s = (s, [])
    ∧ (sendQuestion questions idx now s).1 = s
    ∧ (sendQuestion questions idx now s).2 = []
    ∧ errorsOf (sendQuestion questions idx now s).2 = [] := by
  have hs := sendQuestion_out_invalid questions idx now s (questionAt_outOfRange questions idx h)
  rw [hs]
  exact ⟨rfl, rfl, rfl, rfl⟩

theorem sendQuestion_invalid_index_silent_witness :
    outOfRange sampleBank (IndexArg.integer 1)
    ∧ sendQuestion sampleBank (IndexArg.integer 1) 5000 sampleAnswered = (sampleAnswered, [])
    ∧ (sendQuestion sampleBank (IndexArg.integer 1) 5000 sampleAnswered).1 = sampleAnswered
    ∧ (sendQuestion sampleBank (IndexArg.integer 1) 5000 sampleAnswered).2 = []
    ∧ errorsOf (sendQuestion sampleBank (IndexArg.integer 1) 5000 sampleAnswered).2 = [] :=
  ⟨Or.inr (by decide),
   sendQuestion_invalid_index_silent sampleBank (IndexArg.integer 1) 5000 sampleAnswered
     (Or.inr (by decide))⟩

/-! ## The answer log grows by appending -/

theorem submitAnswer_log_appends (s : State) (sock : Nat) (option : String) (now : Int) :
    ∃ added, (submitAnswer sock option now s).1.answeredOrder = s.answeredOrder ++ added := by
  rcases submitAnswer_cases s sock option now with ⟨e, he⟩ | ⟨name, q, _, _, _, _, hacc⟩
  · exact ⟨[], by rw [he]; simp⟩
  · exact ⟨_, by rw [hacc, acceptAnswer_answeredOrder]⟩

theorem run_log_appends (questions : List Question) (es : List Event) :
    ∀ s : State, (∀ e ∈ es, duringQuestion e = true) →
      ∃ added, (run questions es s).1.answeredOrder = s.answeredOrder ++ added := by
  induction es with
  | nil => intro s _; exact ⟨[], by simp [run]⟩
  | cons e rest ih =>
    intro s hall
    have he := hall e (List.mem_cons_self _ _)
    obtain ⟨more, hmore⟩ := ih (step questions e s).1
      (fun e2 h2 => hall e2 (List.mem_cons_of_mem _ h2))
    have hstep : ∃ added, (step questions e s).1.answeredOrder = s.answeredOrder ++ added := by
      cases e with
      | connection c => exact ⟨[], by simp [step, connection]⟩
      | join c name => exact ⟨[], by simp [step, (join_effect c name s).2.1]⟩
      | submitAnswer c o t => exact submitAnswer_log_appends s c o t
      | disconnect c => exact ⟨[], by simp [step]⟩
      | sendQuestion i t => simp [duringQuestion] at he
      | endQuestion => simp [duringQuestion] at he
      | timeout h => simp [duringQuestion] at he
    obtain ⟨added, hadded⟩ := hstep
    refine ⟨added ++ more, ?_⟩
    simp only [run]
    rw [hmore, hadded, List.append_assoc]

/-- C16. In a state with an active question `q`, for a joined player `p` with
no record in the answer log, `submitAnswer(o)` turns the log `L` into `L`
followed by one record, with player `p`, option `o`, the time taken, and
`correct` true exactly when `o` is `q.correct`. Across every queue of events
that neither start nor end a question the log after is the log before followed
by further records: records are never removed nor reordered. -/
theorem submitAnswer_appends_record (s : State) (sock : Nat) (playerName : String)
    (q : Question) (option : String) (now : Int)
    (hjoin : playerNameOf s sock = some playerName) (hname : playerName ≠ "")
    (hq : s.currentQuestion = some q)
    (hnew : ∀ a ∈ s.answeredOrder, a.player ≠ playerName) :
    (submitAnswer sock option now s).1.answeredOrder
      = s.answeredOrder ++
          [{ player := playerName,
             option := option,
             timeTaken := now - s.questionStartTime.getD 0,
             correct := decide (option = q.correct) }]
    ∧ (∀ (questions : List Question) (es : List Event),
        (∀ e ∈ es, duringQuestion e = true) →
        ∃ added, (run questions es s).1.answeredOrder = s.answeredOrder ++ added) := by
  refine ⟨?_, fun questions es hall => run_log_appends questions es s hall⟩
  rw [submitAnswer_accept s sock playerName q option now hjoin hname hq hnew,
    acceptAnswer_answeredOrder]

theorem submitAnswer_appends_record_witness :
    (playerNameOf sampleAnswered 2 = some "B" ∧ "B" ≠ ""
      ∧ sampleAnswered.currentQuestion = some sampleQuestion
      ∧ ∀ a ∈ sampleAnswered.answeredOrder, a.player ≠ "B")
    ∧ (submitAnswer 2 "3" 3000 sampleAnswered).1.answeredOrder
      = sampleAnswered.answeredOrder ++
          [{ player := "B",
             option := "3",
             timeTaken := 3000 - sampleAnswered.questionStartTime.getD 0,
             correct := decide ("3" = sampleQuestion.correct) }] :=
  ⟨⟨by decide, by decide, by decide, by decide⟩,
   (submitAnswer_appends_record sampleAnswered 2 "B" sampleQuestion "3" 3000
    (by decide) (by decide) (by decide) (by decide)).1⟩

end Quiz

namespace Quiz

/-! ## Joining -/

theorem join_creates_entry (sock : Nat) (name : String) (s : State) (hname : name ≠ "")
    (h : getProp s.scores name = Read.undefined) :
    ownProp (join sock name s).1.scores name = some 0 := by
  obtain ⟨_, hkey⟩ := ownProp_of_getProp_undefined s.scores name h
  simp only [join, hname, if_false, setPlayerName, h, isFalsy, if_true]
  exact ownProp_setProp_of_key s.scores name 0 hkey

/-- C17, failing input. In the initial state, where `scores` is empty, a
`join("constructor")` leaves `scores` empty and broadcasts it so: line 65
reads the function inherited from `Object.prototype`, which is truthy, and
writes nothing. The same holds of `join("__proto__")`, whereas `join("A")`
creates the entry 0. When the question of `sampleBank` is then sent and the
player `constructor` answers it correctly, the entry written by line 95 is the
string `function Object() { [native code] }10`, not a score. -/
theorem join_inherited_name_creates_no_entry :
    "constructor" ≠ ""
    ∧ ownProp State.initial.scores "constructor" = none
    ∧ getProp State.initial.scores "constructor" = Read.inheritedFunction "Object"
    ∧ (join 1 "constructor" State.initial).1.scores = []
    ∧ ownProp (join 1 "constructor" State.initial).1.scores "constructor" = none
    ∧ (join 1 "constructor" State.initial).2 = [Emit.toAll (Msg.scoreUpdate [] [])]
    ∧ getProp State.initial.scores "__proto__" = Read.prototype
    ∧ (join 1 "__proto__" State.initial).1.scores = []
    ∧ (join 1 "A" State.initial).1.scores = [("A", 0)]
    ∧ (run sampleBank [Event.join 1 "constructor", Event.sendQuestion (IndexArg.integer 0) 1000,
          Event.submitAnswer 1 "4" 2000] State.initial).1.scores.map
          (fun e => (e.1, e.2.toText))
        = [("constructor", "function Object() \x7b [native code] \x7d10")] := by
  decide

/-! ## The latency of the last answer -/

theorem acceptAnswer_lastAnswerTime (s : State) (sock : Nat) (playerName : String)
    (q : Question) (option : String) (now : Int) :
    (acceptAnswer sock playerName q option now s).1.lastAnswerTime
      = setProp s.lastAnswerTime playerName (now - s.questionStartTime.getD 0) := by
  by_cases h : option = q.correct <;> simp [acceptAnswer, h]

theorem acceptAnswer_questionStartTime (s : State) (sock : Nat) (playerName : String)
    (q : Question) (option : String) (now : Int) :
    (acceptAnswer sock playerName q option now s).1.questionStartTime
      = s.questionStartTime := by
  by_cases h : option = q.correct <;> simp [acceptAnswer, h]

theorem errorsOf_acceptAnswer (s : State) (sock : Nat) (playerName : String)
    (q : Question) (option : String) (now : Int) :
    errorsOf (acceptAnswer sock playerName q option now s).2 = [] := by
  by_cases h : option = q.correct <;> simp [acceptAnswer, h, errorsOf]

theorem submitAnswer_rejected (s : State) (sock : Nat) (option : String) (now : Int)
    (h : playerNameOf s sock = none ∨ playerNameOf s sock = some ""
      ∨ s.currentQuestion = none
      ∨ ∃ name a, playerNameOf s sock = some name ∧ a ∈ s.answeredOrder ∧ a.player = name) :
    (submitAnswer sock option now s).1 = s := by
  rcases submitAnswer_cases s sock option now with ⟨e, he⟩ | ⟨name, q, hn, hne, hq, hnew, _⟩
  · rw [he]
  · exfalso
    rcases h with h | h | h | ⟨n, a, hn2, ha, hpa⟩
    · rw [hn] at h; simp at h
    · rw [hn] at h
      simp only [Option.some.injEq] at h
      exact hne h
    · rw [hq] at h; simp at h
    · rw [hn] at hn2
      simp only [Option.some.injEq] at hn2
      subst hn2
      exact hnew a ha hpa

theorem step_startTime (questions : List Question) (e : Event) (s : State)
    (h : s.questionStartTime.isSome = s.currentQuestion.isSome) :
    (step questions e s).1.questionStartTime.isSome
      = (step questions e s).1.currentQuestion.isSome := by
  have hend : ∀ t : State, t.questionStartTime.isSome = t.currentQuestion.isSome →
      (endCurrentQuestion t).1.questionStartTime.isSome
        = (endCurrentQuestion t).1.currentQuestion.isSome := by
    intro t ht
    cases hq : t.currentQuestion with
    | none => rw [endCurrentQuestion_idle t hq, ht, hq]
    | some q => rw [endCurrentQuestion_eq t q hq]; rfl
  cases e with
  | connection c => exact h
  | sendQuestion i t =>
    simp only [step, sendQuestion]
    split
    · exact h
    · rw [startQuestion_eq]
      rfl
  | join c name =>
    simp only [step]
    rw [(join_effect c name s).1, (join_effect c name s).2.2.2.2.1]
    exact h
  | submitAnswer c o t =>
    simp only [step]
    rcases submitAnswer_cases s c o t with ⟨e, he⟩ | ⟨name, q, _, _, _, _, hacc⟩
    · rw [he]
      exact h
    · rw [hacc, acceptAnswer_questionStartTime, acceptAnswer_currentQuestion]
      exact h
  | endQuestion => exact hend s h
  | timeout handle =>
    simp only [step, timeoutFires]
    split
    · exact hend _ h
    · exact h
  | disconnect c => exact h

theorem reachable_startTime (questions : List Question) (s : State)
    (hr : Reachable questions s) :
    s.questionStartTime.isSome = s.currentQuestion.isSome := by
  obtain ⟨es, hes⟩ := hr
  rw [← hes]
  have key : ∀ (es : List Event) (t : State),
      t.questionStartTime.isSome = t.currentQuestion.isSome →
      (run questions es t).1.questionStartTime.isSome
        = (run questions es t).1.currentQuestion.isSome := by
    intro es
    induction es with
    | nil => intro t ht; exact ht
    | cons e rest ih =>
      intro t ht
      simp only [run]
      exact ih _ (step_startTime questions e t ht)
  exact key es State.initial rfl

end Quiz

namespace Quiz

/-- For a joined player with no record in the answer log whose name is not
`__proto__`, in a state with an active question: `submitAnswer`, whatever the
option, sets the entry of this player in `lastAnswerTime` to the time taken, the
answer time less `questionStartTime` (which is set in every reachable state
with an active question), and leaves the entries of the other players as they
are. A rejected `submitAnswer` (no name, no active question, or a record
already in the log) leaves the state, hence `lastAnswerTime`, as it is. -/
theorem submitAnswer_records_latency (s : State) (sock : Nat) (playerName : String)
    (q : Question) (option : String) (now : Int)
    (hjoin : playerNameOf s sock = some playerName) (hname : playerName ≠ "")
    (hq : s.currentQuestion = some q)
    (hnew : ∀ a ∈ s.answeredOrder, a.player ≠ playerName)
    (hkey : playerName ≠ "__proto__") :
    ownProp (submitAnswer sock option now s).1.lastAnswerTime playerName
      = some (now - s.questionStartTime.getD 0)
    ∧ (∀ t0, s.questionStartTime = some t0 →
        ownProp (submitAnswer sock option now s).1.lastAnswerTime playerName
          = some (now - t0))
    ∧ (∀ questions : List Question, Reachable questions s →
        ∃ t0, s.questionStartTime = some t0)
    ∧ (∀ other, other ≠ playerName →
        ownProp (submitAnswer sock option now s).1.lastAnswerTime other
          = ownProp s.lastAnswerTime other)
    ∧ (∀ (s2 : State) (sock2 : Nat) (option2 : String) (now2 : Int),
        (playerNameOf s2 sock2 = none ∨ playerNameOf s2 sock2 = some ""
          ∨ s2.currentQuestion = none
          ∨ ∃ name a, playerNameOf s2 sock2 = some name ∧ a ∈ s2.answeredOrder
              ∧ a.player = name) →
        (submitAnswer sock2 option2 now2 s2).1.lastAnswerTime = s2.lastAnswerTime) := by
  have hacc := submitAnswer_accept s sock playerName q option now hjoin hname hq hnew
  have hlat : ownProp (submitAnswer sock option now s).1.lastAnswerTime playerName
      = some (now - s.questionStartTime.getD 0) := by
    rw [hacc, acceptAnswer_lastAnswerTime]
    exact ownProp_setProp_of_key _ _ _ hkey
  refine ⟨hlat, ?_, ?_, ?_, ?_⟩
  · intro t0 ht0
    rw [hlat, ht0]
    rfl
  · intro questions hr
    have h := reachable_startTime questions s hr
    rw [hq] at h
    exact Option.isSome_iff_exists.mp h
  · intro other hother
    rw [hacc, acceptAnswer_lastAnswerTime]
    exact ownProp_setProp_other _ _ _ _ hother
  · intro s2 sock2 option2 now2 hrej
    rw [submitAnswer_rejected s2 sock2 option2 now2 hrej]

/-- C18, failing input. In `sampleInherited` the joined player `__proto__`, who
has no record in the log of the active question, submits an answer at time
2000, one second after the start: the submission is accepted (a record with
the time taken is appended and `yourPoints` is sent), but `lastAnswerTime`
stays empty: the write of line 87 is dropped, and no latency is recorded for
this player. -/
theorem proto_latency_not_recorded :
    playerNameOf sampleInherited 1 = some "__proto__"
    ∧ sampleInherited.currentQuestion = some sampleQuestion
    ∧ sampleInherited.answeredOrder = []
    ∧ sampleInherited.questionStartTime = some 1000
    ∧ sampleInherited.lastAnswerTime = []
    ∧ (submitAnswer 1 "3" 2000 sampleInherited).1.answeredOrder
        = [{ player := "__proto__", option := "3", timeTaken := 1000, correct := false }]
    ∧ yourPointsOf (submitAnswer 1 "3" 2000 sampleInherited).2 = [0]
    ∧ errorsOf (submitAnswer 1 "3" 2000 sampleInherited).2 = []
    ∧ (submitAnswer 1 "3" 2000 sampleInherited).1.lastAnswerTime = []
    ∧ ownProp (submitAnswer 1 "3" 2000 sampleInherited).1.lastAnswerTime "__proto__" = none
    ∧ (submitAnswer 2 "3" 2000 sampleInherited).1.lastAnswerTime = [("constructor", 1000)] := by
  decide

/-! ## The scores a submission touches -/

theorem submitAnswer_scores_other (s : State) (sock : Nat) (option : String) (now : Int)
    (p : String) (hp : playerNameOf s sock ≠ some p) :
    getProp (submitAnswer sock option now s).1.scores p = getProp s.scores p := by
  rcases submitAnswer_cases s sock option now with ⟨e, he⟩ | ⟨name, q, hn, _, _, _, hacc⟩
  · rw [he]
  · have hne : p ≠ name := by
      intro h
      subst h
      exact hp hn
    rw [hacc, acceptAnswer_scores_eq]
    split
    · exact getProp_setProp_other _ _ _ _ hne
    · rfl

theorem submitAnswer_scores_incorrect (s : State) (sock : Nat) (option : String) (now : Int)
    (h : ∀ q, s.currentQuestion = some q → option ≠ q.correct) :
    (submitAnswer sock option now s).1.scores = s.scores := by
  rcases submitAnswer_cases s sock option now with ⟨e, he⟩ | ⟨name, q, _, _, hq, _, hacc⟩
  · rw [he]
  · rw [hacc, acceptAnswer_scores_eq]
    simp [h q hq]

theorem submitAnswer_state_of_error (s : State) (sock : Nat) (option : String) (now : Int)
    (h : errorsOf (submitAnswer sock option now s).2 ≠ []) :
    (submitAnswer sock option now s).1 = s := by
  rcases submitAnswer_cases s sock option now with ⟨e, he⟩ | ⟨name, q, _, _, _, _, hacc⟩
  · rw [he]
  · rw [hacc, errorsOf_acceptAnswer] at h
    exact absurd rfl h

/-- C19. In every state and for every option, `submitAnswer` on a connection
leaves the entry in `scores` of every player other than the one joined on that
connection as it is. When the option is not the correct answer of the current
question, and when the submission is rejected (an `errorMessage` is sent:
no name, no active question, or a record already in the log), the whole of
`scores`, the entry of the submitting player included, is unchanged. -/
theorem submitAnswer_touches_own_score (s : State) (sock : Nat) (option : String)
    (now : Int) :
    (∀ p, playerNameOf s sock ≠ some p →
        getProp (submitAnswer sock option now s).1.scores p = getProp s.scores p)
    ∧ ((∀ q, s.currentQuestion = some q → option ≠ q.correct) →
        (submitAnswer sock option now s).1.scores = s.scores)
    ∧ (errorsOf (submitAnswer sock option now s).2 ≠ [] →
        (submitAnswer sock option now s).1.scores = s.scores)
    ∧ ((playerNameOf s sock = none ∨ playerNameOf s sock = some ""
          ∨ s.currentQuestion = none
          ∨ ∃ name a, playerNameOf s sock = some name ∧ a ∈ s.answeredOrder
              ∧ a.player = name) →
        (submitAnswer sock option now s).1.scores = s.scores) := by
  refine ⟨fun p hp => submitAnswer_scores_other s sock option now p hp,
    fun h => submitAnswer_scores_incorrect s sock option now h, ?_, ?_⟩
  · intro h
    rw [submitAnswer_state_of_error s sock option now h]
  · intro h
    rw [submitAnswer_rejected s sock option now h]

theorem submitAnswer_touches_own_score_witness :
    (playerNameOf sampleAnswered 3 ≠ some "A"
      ∧ (∀ q, sampleAnswered.currentQuestion = some q → "3" ≠ q.correct))
    ∧ getProp (submitAnswer 3 "4" 4000 sampleAnswered).1.scores "A"
        = getProp sampleAnswered.scores "A"
    ∧ (submitAnswer 3 "3" 4000 sampleAnswered).1.scores = sampleAnswered.scores :=
  ⟨⟨by decide, by intro q hq; cases hq; decide⟩,
   (submitAnswer_touches_own_score sampleAnswered 3 "4" 4000).1 "A" (by decide),
   (submitAnswer_touches_own_score sampleAnswered 3 "3" 4000).2.1
     (by intro q hq; cases hq; decide)⟩

end Quiz

namespace Quiz

/-! ## The points given for one question -/

theorem awardsTotal_ten : awardsTotal 10 = 55 := by
  decide

/-- C20, failing input. From `protoTenStart` (ten players joined, the first
named `__proto__`, the question just sent, empty log, sum of the scores 0) the
ten players answer correctly one after the other, with no start or end in
between. All ten answers are accepted and recorded as correct and the points
reported are 10, 9, ..., 1, which sum to 55; but the sum of all the scores has
grown by 45 only: the 10 points of `__proto__` are not written to `scores`. -/
theorem proto_ten_correct_sum_below_55 :
    protoTenStart.currentQuestion = some sampleQuestion
    ∧ protoTenStart.answeredOrder = []
    ∧ (∀ e ∈ tenCorrectAnswers, duringQuestion e = true)
    ∧ totalScore protoTenStart = 0
    ∧ correctCount (run sampleBank tenCorrectAnswers protoTenStart).1.answeredOrder = 10
    ∧ yourPointsOf (run sampleBank tenCorrectAnswers protoTenStart).2
        = [10, 9, 8, 7, 6, 5, 4, 3, 2, 1]
    ∧ totalScore (run sampleBank tenCorrectAnswers protoTenStart).1 = 45
    ∧ ownProp (run sampleBank tenCorrectAnswers protoTenStart).1.scores "__proto__" = none
    ∧ (run sampleBank tenCorrectAnswers protoTenStart).1.scores
        = [("P2", 9), ("P3", 8), ("P4", 7), ("P5", 6), ("P6", 5), ("P7", 4), ("P8", 3),
           ("P9", 2), ("P10", 1)] := by
  decide

end Quiz
